import Mathlib

/-!
Verification development for the Conduit Status Check API
(`src/StatusCheckService.py`), a FastAPI facade with per-provider
status probes behind a double-checked, lock-guarded TTL cache.

Modelling conventions:
* machine floats (`time.time()`, latency) are modelled as `ℚ`;
  Python ints as `ℤ`/`ℕ`;
* fallible upstream calls (HTTP, UDP, JSON decoding) are modelled as
  `Except ProbeErr payload` parameters: the payload is what the
  surrounding `try` block would have received, the `error` case is any
  exception raised inside it;
* Python dicts read with `.get(k, default)` become structures with
  `Option` fields; a dict such as `{"is_online": False}` whose other
  keys are only read through `.get` is identified with the record
  whose other fields are all `none`;
* the module-level cache dicts become functions `String → Option (ℚ × α)`
  (expiry timestamp and stored value), updated with `Function.update`;
* sequential endpoint models take two timestamps `tCheck` (the
  `now = time.time()` captured on entry) and `tStore` (the later
  `time.time()` at which a refreshed entry is written);
* the `asyncio` interleaving of the double-checked single-flight
  pattern is modelled as an explicit transition system (`GateSys`,
  `gateStep`): one step per atomic segment between `await` points.
-/

/-- Kinds of exception an upstream interaction can raise at a probe
boundary (DNS/transport errors, timeouts, malformed payloads). -/
inductive ProbeErr where
  | transport
  | timeout
  | dns
  | malformed
deriving DecidableEq

/-- A provider cache: the module-level dicts mapping a fingerprint key
to an expiry timestamp and a stored normalized result. -/
abbrev Cache (α : Type) := String → Option (ℚ × α)

/-- The empty cache (module state at process start). -/
def emptyCache {α : Type} : Cache α := fun _ => none

/-- The shared fast-path read: `cached = cache.get(key)` followed by
`if cached and cached[0] > now`. Returns the stored value only while
it is fresh at `now`. -/
def freshVal {α : Type} (cache : Cache α) (key : String) (now : ℚ) : Option α :=
  match cache key with
  | some (exp, v) => if now < exp then some v else none
  | none => none

/-- No fresh entry for `key` exists at time `t`: any stored entry has
already expired. -/
def noFresh {α : Type} (cache : Cache α) (key : String) (t : ℚ) : Prop :=
  ∀ exp v, cache key = some (exp, v) → exp ≤ t

/-- Python `str(x)` / f-string interpolation of an optional integer:
`None` prints as the four-character string `"None"`. -/
def pyStrOfOptInt (x : Option ℤ) : String :=
  match x with
  | none => "None"
  | some v => toString v

/-- Python f-string interpolation of an optional string: `None`
prints as `"None"`. -/
def pyStrOfOptStr (x : Option String) : String :=
  match x with
  | none => "None"
  | some s => s

/-- Python truthiness of an optional string (`if place_id:`):
`None` and the empty string are falsy. -/
def truthyS (x : Option String) : Bool :=
  match x with
  | none => false
  | some s => s != ""

/- ### Minecraft dual-protocol probe (`ping_minecraft_server`, lines 131-178) -/

/-- Fields of a successful `mcstatus` Java/Bedrock status reply
consumed by the service. -/
structure MCStatusData where
  playersOnline : ℤ
  playersMax : ℤ
  latency : ℚ
  version : String
  motd : String
  icon : Option String
deriving DecidableEq

/-- The dict returned by `ping_minecraft_server`. -/
structure MCResult where
  is_online : Bool
  player_count : Option ℤ
  max_players : Option ℤ
  latency : Option ℚ
  version : Option String
  motd : Option String
  icon : Option String
deriving DecidableEq

/-- The explicit all-`None` offline record of the double-failure branch. -/
def mcOffline : MCResult :=
  ⟨false, none, none, none, none, none, none⟩

/-- `ping_minecraft_server`: try the Java protocol; on any exception
fall back to Bedrock (whose record always carries `icon = None`); on a
second exception return the explicit offline record. The two
`Except` arguments are the outcomes of the two protocol attempts. -/
def ping_minecraft_server (javaOutcome bedrockOutcome : Except ProbeErr MCStatusData) :
    MCResult :=
  match javaOutcome with
  | .ok s =>
    ⟨true, some s.playersOnline, some s.playersMax, some s.latency,
      some s.version, some s.motd, s.icon⟩
  | .error _ =>
    match bedrockOutcome with
    | .ok s =>
      ⟨true, some s.playersOnline, some s.playersMax, some s.latency,
        some s.version, some s.motd, none⟩
    | .error _ => mcOffline

/-- The `ServerStatusResponse` model (checkedAt as a rational instant). -/
structure ServerStatusR where
  isOnline : Bool
  onlinePlayers : Option ℤ
  maxPlayers : Option ℤ
  ping : Option ℚ
  version : Option String
  description : Option String
  checkedAt : ℚ
  icon : Option String
deriving DecidableEq

/-- `get_server_status` (lines 180-192): the Minecraft endpoint calls
`ping_minecraft_server` directly and wraps the result; there is no
cache read or write anywhere in its body. -/
def get_server_status (host : String) (server_port : Option ℕ)
    (javaOutcome bedrockOutcome : Except ProbeErr MCStatusData) (t : ℚ) :
    ServerStatusR :=
  let _ := host
  let _ := server_port
  let status := ping_minecraft_server javaOutcome bedrockOutcome
  ⟨status.is_online, status.player_count, status.max_players, status.latency,
    status.version, status.motd, t, status.icon⟩

/-- One inbound Minecraft status request together with the upstream
outcomes its probe would observe and its arrival instant. -/
structure MCReq where
  host : String
  server_port : Option ℕ
  javaOutcome : Except ProbeErr MCStatusData
  bedrockOutcome : Except ProbeErr MCStatusData
  t : ℚ

/-- Serving a sequence of Minecraft requests with the code's
`get_server_status`: every request performs its own probe (the second
component counts probe invocations, one per request). -/
def serverStatusRun : List MCReq → List ServerStatusR × ℕ
  | [] => ([], 0)
  | r :: rest =>
    let resp := get_server_status r.host r.server_port r.javaOutcome r.bedrockOutcome r.t
    let rem := serverStatusRun rest
    (resp :: rem.1, rem.2 + 1)

/-- Modelled from the spec: the fingerprint key the spec's cached
control flow (sections 2 and 4.1) would assign to a Minecraft status
request; the code builds no such key. -/
def mcSpecKey (host : String) (server_port : Option ℕ) : String :=
  "host=" ++ host ++ "|port=" ++ pyStrOfOptInt (server_port.map Int.ofNat)

/-- Modelled from the spec: the stampede-safe cached control flow of
section 4.2 applied to the Minecraft endpoint, as claim C2 asserts the
code implements (fresh hit returns the stored value without probing;
a miss probes and stores with a new expiry). Used only to exhibit the
divergence from `get_server_status`. -/
def specMinecraftCachedRun (TTL : ℚ) :
    List MCReq → Cache ServerStatusR → List (ServerStatusR × Bool) × Cache ServerStatusR
  | [], cache => ([], cache)
  | r :: rest, cache =>
    let key := mcSpecKey r.host r.server_port
    match freshVal cache key r.t with
    | some v =>
      let rem := specMinecraftCachedRun TTL rest cache
      ((v, false) :: rem.1, rem.2)
    | none =>
      let resp := get_server_status r.host r.server_port r.javaOutcome r.bedrockOutcome r.t
      let cache' := Function.update cache key (some (r.t + TTL, resp))
      let rem := specMinecraftCachedRun TTL rest cache'
      ((resp, true) :: rem.1, rem.2)

/- ### Hytale probes (`ping_hytale_nitrado` lines 460-504,
`ping_hytale_hyquery` lines 506-555) -/

/-- One entry of the Nitrado `Players` array. -/
structure NitradoPlayerJson where
  name : Option String
  uuid : Option String
  world : Option String
deriving DecidableEq

/-- Fields of the Nitrado query JSON body read via `.get`. -/
structure NitradoJson where
  serverName : Option String
  version : Option String
  maxPlayers : Option ℤ
  protocolVersion : Option ℤ
  currentPlayers : Option ℤ
  defaultWorld : Option String
  players : List NitradoPlayerJson
deriving DecidableEq

/-- A player record as built by the Hytale probes. -/
structure HyPlayer where
  name : String
  uuid : Option String
  world : Option String
deriving DecidableEq

/-- The dict returned by the two Hytale probes. The Python offline
dict `{"is_online": False}` is identified with the record whose other
fields are all `none`/empty, since they are only read via `.get`. -/
structure HyResult where
  is_online : Bool
  server_name : Option String
  version : Option String
  online_players : Option ℤ
  max_players : Option ℤ
  default_world : Option String
  players : List HyPlayer
  protocol_version : Option ℤ
deriving DecidableEq

/-- The offline Hytale probe record. -/
def hyOffline : HyResult :=
  ⟨false, none, none, none, none, none, [], none⟩

/-- `ping_hytale_nitrado`: HTTP GET to the Nitrado query endpoint; any
exception (transport, timeout, JSON decode) or a non-200 status yields
the offline record; otherwise the `Server`/`Universe`/`Players`
sub-objects are mapped into the probe record. The `Except` argument
carries the HTTP status code and decoded body. -/
def ping_hytale_nitrado (outcome : Except ProbeErr (ℕ × NitradoJson)) : HyResult :=
  match outcome with
  | .error _ => hyOffline
  | .ok (status, data) =>
    if status ≠ 200 then hyOffline
    else
      { is_online := true
        server_name := data.serverName
        version := data.version
        online_players := data.currentPlayers
        max_players := data.maxPlayers
        default_world := data.defaultWorld
        players := data.players.map (fun p => ⟨p.name.getD "Unknown", p.uuid, p.world⟩)
        protocol_version := data.protocolVersion }

/-- The nested `players` object of a HyQuery JSON payload. -/
structure HyPlayersJson where
  online : Option ℤ
  max : Option ℤ
deriving DecidableEq

/-- Fields of a HyQuery JSON payload read via `.get`. -/
structure HyQueryJson where
  name : Option String
  version : Option String
  players : Option HyPlayersJson
  world : Option String
  protocol : Option ℤ
deriving DecidableEq

/-- The 8-byte magic preamble `b"HYQUERY\0"` as a byte list. -/
def magicBytes : List ℕ := [72, 89, 81, 85, 69, 82, 89, 0]

/-- `ping_hytale_hyquery`: UDP exchange; a socket failure yields
offline; a response that is shorter than 8 bytes or does not start
with the magic preamble yields offline; the bytes after the preamble
are UTF-8 JSON, whose decode/parse (the external `decode`/`json.loads`
capability, the `parse` argument returning `none` on either failure)
failure yields offline; otherwise the fields are mapped, with an
always-empty player list. -/
def ping_hytale_hyquery (udpOutcome : Except ProbeErr (List ℕ))
    (parse : List ℕ → Option HyQueryJson) : HyResult :=
  match udpOutcome with
  | .error _ => hyOffline
  | .ok responseData =>
    if responseData.length < 8 then hyOffline
    else if responseData.take 8 ≠ magicBytes then hyOffline
    else
      match parse (responseData.drop 8) with
      | none => hyOffline
      | some d =>
        { is_online := true
          server_name := d.name
          version := d.version
          online_players := (d.players.getD ⟨none, none⟩).online
          max_players := (d.players.getD ⟨none, none⟩).max
          default_world := d.world
          players := []
          protocol_version := d.protocol }

/- ### Hytale endpoint (`get_hytale_status`, lines 557-606) -/

/-- `HYTALE_DEFAULT_QUERY_PORT` (line 41). -/
def HYTALE_DEFAULT_QUERY_PORT : ℕ := 5523

/-- `HYTALE_DEFAULT_GAME_PORT` (line 42). -/
def HYTALE_DEFAULT_GAME_PORT : ℕ := 5520

/-- Port resolution of `get_hytale_status` (lines 563-566): a missing
port defaults to the game port for `"hyquery"` and to the query port
for every other method. -/
def hytaleEffectivePort (port : Option ℕ) (method : String) : ℕ :=
  if method = "hyquery" then port.getD HYTALE_DEFAULT_GAME_PORT
  else port.getD HYTALE_DEFAULT_QUERY_PORT

/-- The Hytale cache key (line 568):
`f"host={host}|port={effective_port}|method={method}"`, built from the
already-resolved port. -/
def hytaleKey (host : String) (port : Option ℕ) (method : String) : String :=
  "host=" ++ host ++ "|port=" ++ toString (hytaleEffectivePort port method)
    ++ "|method=" ++ method

/-- The `HytaleServerStatusResponse` model. -/
structure HytaleResp where
  isOnline : Bool
  serverName : Option String
  version : Option String
  onlinePlayers : Option ℤ
  maxPlayers : Option ℤ
  defaultWorld : Option String
  players : List HyPlayer
  protocolVersion : Option ℤ
  checkedAt : ℚ
deriving DecidableEq

/-- The normalization step of `get_hytale_status` (lines 584-603):
repackage the probe dict into the response model. (The player dicts
produced by the probes always carry a `name`, so the re-wrapping with
`.get("name", "Unknown")` is the identity on them.) -/
def normalizeHytale (status : HyResult) (t : ℚ) : HytaleResp :=
  ⟨status.is_online, status.server_name, status.version, status.online_players,
    status.max_players, status.default_world, status.players,
    status.protocol_version, t⟩

/-- The probe dispatch of `get_hytale_status` (lines 579-582):
`"hyquery"` selects the UDP probe, anything else the Nitrado probe. -/
def hytaleProbe (method : String)
    (nitradoOutcome : Except ProbeErr (ℕ × NitradoJson))
    (udpOutcome : Except ProbeErr (List ℕ))
    (parse : List ℕ → Option HyQueryJson) : HyResult :=
  if method = "hyquery" then ping_hytale_hyquery udpOutcome parse
  else ping_hytale_nitrado nitradoOutcome

/-- `get_hytale_status`, sequential view (single caller, so the
double-check under the lock coincides with the fast-path check):
resolve the port, build the key, return a fresh cached entry if one
exists, otherwise probe (per `method`), normalize, and store the
result with expiry `tStore + TTL`. The third component records
whether this call invoked the upstream probe. -/
def get_hytale_status (host : String) (port : Option ℕ) (method : String)
    (nitradoOutcome : Except ProbeErr (ℕ × NitradoJson))
    (udpOutcome : Except ProbeErr (List ℕ))
    (parse : List ℕ → Option HyQueryJson)
    (TTL : ℚ) (cache : Cache HytaleResp) (tCheck tStore : ℚ) :
    HytaleResp × Cache HytaleResp × Bool :=
  let key := hytaleKey host port method
  match freshVal cache key tCheck with
  | some v => (v, cache, false)
  | none =>
    let status := hytaleProbe method nitradoOutcome udpOutcome parse
    let result := normalizeHytale status tStore
    (result, Function.update cache key (some (tStore + TTL, result)), true)

/-- One Hytale status call: request parameters, upstream outcomes, and
its check/store instants. -/
structure HyCallArgs where
  host : String
  port : Option ℕ
  method : String
  nitradoOutcome : Except ProbeErr (ℕ × NitradoJson)
  udpOutcome : Except ProbeErr (List ℕ)
  parse : List ℕ → Option HyQueryJson
  tCheck : ℚ
  tStore : ℚ

/-- The probe result a given call would observe. -/
def hytaleProbeOf (a : HyCallArgs) : HyResult :=
  hytaleProbe a.method a.nitradoOutcome a.udpOutcome a.parse

/-- Serving a sequence of Hytale status calls against the shared
cache, recording each call's response and whether it probed. -/
def hytaleStatusRun (TTL : ℚ) :
    List HyCallArgs → Cache HytaleResp → List (HytaleResp × Bool) × Cache HytaleResp
  | [], cache => ([], cache)
  | a :: rest, cache =>
    let step := get_hytale_status a.host a.port a.method a.nitradoOutcome
      a.udpOutcome a.parse TTL cache a.tCheck a.tStore
    let rem := hytaleStatusRun TTL rest step.2.1
    ((step.1, step.2.2) :: rem.1, rem.2)

/-- The calls in a sequential run happen at nondecreasing instants:
each call's check precedes its store, which precedes the next check. -/
def hyTimesMono : ℚ → List HyCallArgs → Prop
  | _, [] => True
  | t, a :: rest => t ≤ a.tCheck ∧ a.tCheck ≤ a.tStore ∧ hyTimesMono a.tStore rest

/- ### Roblox endpoints (`get_roblox_status` lines 194-245,
`get_roblox_universe_id` lines 247-273) -/

/-- The `RobloxStatusResponse` model / the result dicts of
`get_roblox_status` (the offline dict `{"is_online": False}` is the
record with all other fields `none`). -/
structure RobloxStatusR where
  is_online : Bool
  playing : Option ℤ
  max_players : Option ℤ
  name : Option String
  description : Option String
  place_id : Option String
deriving DecidableEq

/-- The offline Roblox status result. -/
def robloxOffline : RobloxStatusR :=
  ⟨false, none, none, none, none, none⟩

/-- One entry of the games API `data` array, fields read via `.get`. -/
structure RobloxGameJson where
  playing : Option ℤ
  maxPlayers : Option ℤ
  name : Option String
  description : Option String
  rootPlaceId : Option ℤ
deriving DecidableEq

/-- The Roblox status cache key (line 196):
`f"place={place_id}|universe={universe_id}"`, interpolating `None` as
the literal string. -/
def robloxStatusKey (placeId universeId : Option String) : String :=
  "place=" ++ pyStrOfOptStr placeId ++ "|universe=" ++ pyStrOfOptStr universeId

/-- The games-API half of `get_roblox_status` (lines 221-240): a
missing or empty `data` array yields the offline result, a nonempty
one the online record (`playing` defaulted to 0, `place_id` the
stringified `rootPlaceId`, which prints as `"None"` when missing);
either way the result is stored with expiry `tStore + TTL`. -/
def robloxGamesStep (key : String)
    (gamesOutcome : Except ProbeErr (Option (List RobloxGameJson)))
    (TTL : ℚ) (cache : Cache RobloxStatusR) (tStore : ℚ) :
    RobloxStatusR × Cache RobloxStatusR × Bool :=
  let result : RobloxStatusR :=
    match gamesOutcome with
    | .error _ => robloxOffline
    | .ok none => robloxOffline
    | .ok (some []) => robloxOffline
    | .ok (some (gd :: _)) =>
      ⟨true, some (gd.playing.getD 0), gd.maxPlayers, gd.name, gd.description,
        some (pyStrOfOptInt gd.rootPlaceId)⟩
  (result, Function.update cache key (some (tStore + TTL, result)), true)

/-- `get_roblox_status`, sequential view: build the key from the raw
parameters, serve a fresh cached entry, otherwise — when a truthy
`place_id` comes without a truthy `universe_id` — resolve the place to
a universe first (`resolveOutcome` is the `universeId` field of that
response, `error` any exception in the `try` block): a missing
`universeId` immediately stores and returns the offline result;
otherwise the games query proceeds. The third component records
whether upstream was contacted. -/
def get_roblox_status (placeId universeId : Option String)
    (resolveOutcome : Except ProbeErr (Option ℤ))
    (gamesOutcome : Except ProbeErr (Option (List RobloxGameJson)))
    (TTL : ℚ) (cache : Cache RobloxStatusR) (tCheck tStore : ℚ) :
    RobloxStatusR × Cache RobloxStatusR × Bool :=
  let key := robloxStatusKey placeId universeId
  match freshVal cache key tCheck with
  | some v => (v, cache, false)
  | none =>
    if truthyS placeId && !truthyS universeId then
      match resolveOutcome with
      | .error _ =>
        (robloxOffline, Function.update cache key (some (tStore + TTL, robloxOffline)), true)
      | .ok none =>
        (robloxOffline, Function.update cache key (some (tStore + TTL, robloxOffline)), true)
      | .ok (some _) => robloxGamesStep key gamesOutcome TTL cache tStore
    else robloxGamesStep key gamesOutcome TTL cache tStore

/-- The `RobloxUniverseResponse` model / result dict of
`get_roblox_universe_id`. -/
structure RobloxUniverseR where
  universe_id : Option String
deriving DecidableEq

/-- `get_roblox_universe_id`, sequential view: on a cache miss the
universe endpoint builds
`{"universe_id": f'{data.get("universeId", None)}'}` — so a response
without a `universeId` field stores the string `"None"` — while an
exception in the request/decode stores a true `None`; both outcomes
are cached with expiry `tStore + TTL`. -/
def get_roblox_universe_id (placeId : ℤ)
    (outcome : Except ProbeErr (Option ℤ))
    (TTL : ℚ) (cache : Cache RobloxUniverseR) (tCheck tStore : ℚ) :
    RobloxUniverseR × Cache RobloxUniverseR × Bool :=
  let key := toString placeId
  match freshVal cache key tCheck with
  | some v => (v, cache, false)
  | none =>
    let result : RobloxUniverseR :=
      match outcome with
      | .ok uid => ⟨some (pyStrOfOptInt uid)⟩
      | .error _ => ⟨none⟩
    (result, Function.update cache key (some (tStore + TTL, result)), true)

/- ### Steam player count (`get_steam_player_count`, lines 276-305) -/

/-- The `SteamPlayerCountResponse` model / result dict. -/
structure SteamPlayerR where
  appid : ℤ
  player_count : Option ℤ
  checkedAt : ℚ
deriving DecidableEq

/-- `get_steam_player_count`, sequential view: key `str(appid)`;
a fresh entry is served as-is, otherwise the probe result
(`outcome` is the extracted `response.player_count` field, missing
levels collapsing to `none`; `error` any exception) is normalized and
stored with expiry `tStore + TTL`. -/
def get_steam_player_count (appid : ℤ)
    (outcome : Except ProbeErr (Option ℤ))
    (TTL : ℚ) (cache : Cache SteamPlayerR) (tCheck tStore : ℚ) :
    SteamPlayerR × Cache SteamPlayerR × Bool :=
  let key := toString appid
  match freshVal cache key tCheck with
  | some v => (v, cache, false)
  | none =>
    let result : SteamPlayerR :=
      match outcome with
      | .ok pc => ⟨appid, pc, tStore⟩
      | .error _ => ⟨appid, none, tStore⟩
    (result, Function.update cache key (some (tStore + TTL, result)), true)

/- ### Epic games transform (`_transform_epic_game`, lines 350-389) -/

/-- The `fmtPrice` sub-object (formatted price labels). -/
structure EpicFmtPrice where
  originalPrice : Option String
  discountPrice : Option String
deriving DecidableEq

/-- The `totalPrice` sub-object: the numeric discount price and the
formatted labels. -/
structure EpicTotalPrice where
  discountPrice : Option ℤ
  fmtPrice : Option EpicFmtPrice
deriving DecidableEq

/-- The `price` sub-object. -/
structure EpicPrice where
  totalPrice : Option EpicTotalPrice
deriving DecidableEq

/-- One `catalogNs.mappings` entry. -/
structure EpicMapping where
  pageSlug : Option String
deriving DecidableEq

/-- The `catalogNs` sub-object. -/
structure EpicCatalogNs where
  mappings : List EpicMapping
deriving DecidableEq

/-- One `keyImages` entry. -/
structure EpicImage where
  type : Option String
  url : Option String
deriving DecidableEq

/-- The `seller` sub-object. -/
structure EpicSeller where
  name : Option String
deriving DecidableEq

/-- A raw Epic catalog game entry, fields as read via `.get`. -/
structure EpicRawGame where
  id : Option String
  title : Option String
  seller : Option EpicSeller
  description : Option String
  offerType : Option String
  catalogNs : Option EpicCatalogNs
  urlSlug : Option String
  keyImages : List EpicImage
  price : Option EpicPrice
deriving DecidableEq

/-- The flat `EpicGameInfo` shape produced by the transform. -/
structure EpicGameInfoR where
  id : String
  title : String
  publisher : Option String
  description : Option String
  store_url : String
  images : List (String × String)
  original_price : Option String
  current_price : Option String
  is_free : Bool
deriving DecidableEq

/-- The nested read
`game.get("price", {}).get("totalPrice", {}).get("discountPrice", -1)`
without its default: `none` when any level is missing. -/
def epicDiscountChain (g : EpicRawGame) : Option ℤ :=
  (g.price.bind EpicPrice.totalPrice).bind EpicTotalPrice.discountPrice

/-- `_transform_epic_game`: flatten a raw catalog entry. `is_free` is
the comparison `discount_price_raw == 0` of the numeric discount
price (defaulted to -1 when missing); the formatted labels feed only
`original_price`/`current_price`. -/
def _transform_epic_game (g : EpicRawGame) : EpicGameInfoR :=
  let game_id := g.id.getD ""
  let title := g.title.getD "Unknown"
  let publisher := g.seller.bind EpicSeller.name
  let description := g.description
  let offer_type := g.offerType.getD ""
  let url_type := if offer_type = "BUNDLE" then "bundles" else "p"
  let mappings := (g.catalogNs.map EpicCatalogNs.mappings).getD []
  let slug : Option String :=
    match mappings with
    | [] => some (g.urlSlug.getD "")
    | mp :: _ => mp.pageSlug
  let store_url :=
    match slug with
    | some s =>
      if s = "" then ""
      else "https://store.epicgames.com/en-US/" ++ url_type ++ "/" ++ s
    | none => ""
  let images := g.keyImages.filterMap fun img =>
    match img.type, img.url with
    | some ty, some u => if ty ≠ "" ∧ u ≠ "" then some (ty, u) else none
    | _, _ => none
  let price_info := ((g.price.bind EpicPrice.totalPrice).bind
    EpicTotalPrice.fmtPrice).getD ⟨none, none⟩
  let original_price := price_info.originalPrice
  let current_price := price_info.discountPrice
  let discount_price_raw := (epicDiscountChain g).getD (-1)
  let is_free := discount_price_raw == 0
  ⟨game_id, title, publisher, description, store_url, images,
    original_price, current_price, is_free⟩

/- ### The provider-scoped single-flight gate under asyncio interleaving
(the shared pattern of all five cached endpoints; lines 557-606 for
`get_hytale_status`). Each caller runs the atomic segments between
`await` points: (1) capture `now`, fast-path read; (2) acquire the
lock, double-check, possibly begin the probe; (3) probe returns,
store, release, return. -/

/-- The control point of one logical caller. `wait` and `probing`
remember the `now` captured at entry; `probing` also remembers the
index of its probe invocation. -/
inductive CallerPC (V : Type) where
  | init
  | wait (now : ℚ)
  | probing (now : ℚ) (idx : ℕ)
  | done (v : V)
deriving DecidableEq

/-- Whether a caller currently holds the gate with a probe in flight. -/
def isProbing {V : Type} : CallerPC V → Bool
  | .probing _ _ => true
  | _ => false

/-- Whether a caller has returned. -/
def isDone {V : Type} : CallerPC V → Bool
  | .done _ => true
  | _ => false

/-- The `now` a caller captured on entry, if it is still in flight. -/
def capturedNow {V : Type} : CallerPC V → Option ℚ
  | .wait now => some now
  | .probing now _ => some now
  | _ => none

/-- Global state of one provider's gate: its cache entry for the
contended key, the `asyncio.Lock`, the callers, the clock, and ghost
counters for probe invocations and cache stores. -/
structure GateSys (n : ℕ) (V : Type) where
  cache : Option (ℚ × V)
  lockHeld : Bool
  callers : Fin n → CallerPC V
  time : ℚ
  probeCount : ℕ
  stores : ℕ

/-- A scheduler event: let time advance, or run the next atomic
segment of one caller. -/
inductive GateAct (n : ℕ) where
  | advance (δ : ℚ)
  | run (i : Fin n)

/-- Freshness of the gate's cache entry at a given instant
(`cached and cached[0] > now`). -/
def gateFresh {V : Type} (cache : Option (ℚ × V)) (now : ℚ) : Option V :=
  match cache with
  | some (exp, v) => if now < exp then some v else none
  | none => none

/-- One interleaving step. A caller at `init` captures `now`, serves a
fresh entry without locking, or moves to `wait`; a caller at `wait`
does nothing while the lock is held, else acquires it, double-checks
against its captured `now`, and either returns the fresh entry or
begins the probe; a probing caller's probe completes with
`probeFn idx`, stores the entry with expiry `time + TTL`, releases the
lock and returns. Time only moves forward. -/
def gateStep {n : ℕ} {V : Type} (TTL : ℚ) (probeFn : ℕ → V)
    (s : GateSys n V) : GateAct n → GateSys n V
  | .advance δ => { s with time := s.time + max δ 0 }
  | .run i =>
    match s.callers i with
    | .init =>
      match gateFresh s.cache s.time with
      | some v => { s with callers := Function.update s.callers i (.done v) }
      | none => { s with callers := Function.update s.callers i (.wait s.time) }
    | .wait now =>
      if s.lockHeld then s
      else
        match gateFresh s.cache now with
        | some v => { s with callers := Function.update s.callers i (.done v) }
        | none =>
          { s with lockHeld := true
                   callers := Function.update s.callers i (.probing now s.probeCount)
                   probeCount := s.probeCount + 1 }
    | .probing _ idx =>
      { s with cache := some (s.time + TTL, probeFn idx)
               lockHeld := false
               callers := Function.update s.callers i (.done (probeFn idx))
               stores := s.stores + 1 }
    | .done _ => s

/-- Run a schedule of events. -/
def gateRun {n : ℕ} {V : Type} (TTL : ℚ) (probeFn : ℕ → V)
    (s : GateSys n V) : List (GateAct n) → GateSys n V
  | [] => s
  | a :: rest => gateRun TTL probeFn (gateStep TTL probeFn s a) rest

/-- The initial gate state: a given cache entry (stale or absent),
lock free, all callers not yet started, clock at `t0`. -/
def gateInit (n : ℕ) {V : Type} (c0 : Option (ℚ × V)) (t0 : ℚ) : GateSys n V :=
  ⟨c0, false, fun _ => .init, t0, 0, 0⟩

/-- Lock/probe discipline of the gate: the lock is held exactly while
some probe is in flight, and at most one caller is ever probing. -/
structure MutexInv {n : ℕ} {V : Type} (s : GateSys n V) : Prop where
  lock_iff : s.lockHeld = true ↔ ∃ i, isProbing (s.callers i) = true
  mutex : ∀ i j, isProbing (s.callers i) = true → isProbing (s.callers j) = true → i = j

/-- Bookkeeping invariant of every reachable gate state (for an
initial entry `c0` that is already stale at the initial clock `t0`):
the clock moves forward, captured `now`s lie between `t0` and the
clock, before the first store the cache is untouched and nobody has
returned, and the probe counter exceeds the store counter exactly by
the in-flight probe. -/
structure GateInv {n : ℕ} {V : Type} (c0 : Option (ℚ × V)) (t0 : ℚ)
    (s : GateSys n V) : Prop where
  time_lb : t0 ≤ s.time
  captured : ∀ i now, capturedNow (s.callers i) = some now → t0 ≤ now ∧ now ≤ s.time
  pre_store : s.stores = 0 → s.cache = c0 ∧ ∀ i, isDone (s.callers i) = false
  count_no : (∀ i, isProbing (s.callers i) = false) → s.probeCount = s.stores
  count_yes : ∀ i, isProbing (s.callers i) = true → s.probeCount = s.stores + 1

/-- State of the gate once the single refresh has happened (in a
stampede where every caller checked before the first store): exactly
one probe ran, the lock is free, the stored entry is fresh for every
remaining waiter's captured `now`, and every returned caller carries
the stored value. -/
def StoredInv {n : ℕ} {V : Type} (s : GateSys n V) : Prop :=
  s.stores = 1 ∧ s.probeCount = 1 ∧ s.lockHeld = false ∧
    (∀ i, isProbing (s.callers i) = false) ∧
    ∃ exp v, s.cache = some (exp, v) ∧
      (∀ i w, s.callers i = .done w → w = v) ∧
      (∀ i now, s.callers i = .wait now → now < exp)

/-- Combined reachable-state invariant. -/
def GateGood {n : ℕ} {V : Type} (c0 : Option (ℚ × V)) (t0 : ℚ)
    (s : GateSys n V) : Prop :=
  MutexInv s ∧ GateInv c0 t0 s

/-- Invariant of the stampede phase: every caller has issued its
fast-path check, and either no store has happened yet or the single
refresh has. -/
def PhasedInv {n : ℕ} {V : Type} (c0 : Option (ℚ × V)) (t0 : ℚ)
    (s : GateSys n V) : Prop :=
  GateGood c0 t0 s ∧ (∀ i, s.callers i ≠ .init) ∧ (s.stores = 0 ∨ StoredInv s)

/- ### Concrete scenarios used as witnesses and counterexamples -/

/-- A constant probe answer for concrete runs. -/
def constProbe : ℕ → ℕ := fun _ => 42

/-- Two concurrent callers, no prior entry: both check, caller 0
acquires the gate, probes, stores; caller 1 then piggybacks. -/
def stampedeActs : List (GateAct 2) :=
  [.run 0, .run 1, .run 0, .run 0, .run 1]

/-- The stampede run after both callers checked (no store yet). -/
def stampedeMid : GateSys 2 ℕ :=
  gateRun 1 constProbe (gateInit 2 none 0) (stampedeActs.take 2)

/-- The completed stampede run with TTL 1. -/
def stampedeFinal : GateSys 2 ℕ :=
  gateRun 1 constProbe (gateInit 2 none 0) stampedeActs

/-- With TTL 0: both callers check at time 0, caller 0 probes, the
clock advances by 1, caller 0 stores (expiry 1), caller 1 re-checks
against its captured now = 0 and is served the stored entry. -/
def piggybackActs : List (GateAct 2) :=
  [.run 0, .run 1, .run 0, .advance 1, .run 0, .run 1]

/-- The completed TTL-0 piggyback run. -/
def piggybackFinal : GateSys 2 ℕ :=
  gateRun 0 constProbe (gateInit 2 none 0) piggybackActs

/-- A concrete successful Java status used in the Minecraft scenario. -/
def mcDemoStatus : MCStatusData :=
  ⟨3, 10, 20, "1.21", "A Minecraft Server", none⟩

/-- Two identical Minecraft requests at the same instant: the first
sees the server online, the second sees both protocols fail. -/
def mcDemoReqs : List MCReq :=
  [⟨"mc.example.com", none, .ok mcDemoStatus, .error .transport, 0⟩,
   ⟨"mc.example.com", none, .error .transport, .error .transport, 0⟩]

/-- The online response of the first demo request. -/
def mcDemoOnline : ServerStatusR :=
  ⟨true, some 3, some 10, some 20, some "1.21", some "A Minecraft Server", 0, none⟩

/-- The offline response of the second demo request. -/
def mcDemoOffline : ServerStatusR :=
  ⟨false, none, none, none, none, none, 0, none⟩

/-- A free-to-claim Epic entry: numeric discount price 0 next to a
non-empty original-price label. -/
def epicDemoFree : EpicRawGame :=
  { id := some "abc123"
    title := some "Demo Game"
    seller := some ⟨some "Demo Studio"⟩
    description := none
    offerType := none
    catalogNs := none
    urlSlug := some "demo-game"
    keyImages := []
    price := some ⟨some ⟨some 0, some ⟨some "$19.99", some "$0.00"⟩⟩⟩ }

/- ### Epic games endpoint (`get_epic_games`, lines 391-458) -/

/-- The `EpicGamesResponse` model / result dict of `get_epic_games`. -/
structure EpicGamesR where
  games : List EpicGameInfoR
  checkedAt : ℚ
deriving DecidableEq

/-- Python f-string interpolation of a bool (`f"{free_only}"`). -/
def pyStrOfBool (b : Bool) : String :=
  if b then "True" else "False"

/-- The Epic cache key (line 405):
`f"collection={collection}|count={count}|free_only={free_only}"`. -/
def epicGamesKey (collection : String) (count : ℤ) (free_only : Bool) : String :=
  "collection=" ++ collection ++ "|count=" ++ toString count
    ++ "|free_only=" ++ pyStrOfBool free_only

/-- Python list slicing `l[:n]`: the first `n` elements for `n ≥ 0`,
all but the last `-n` elements for negative `n`. -/
def pySliceTo {α : Type} (l : List α) (n : ℤ) : List α :=
  if 0 ≤ n then l.take n.toNat else l.take (l.length - (-n).toNat)

/-- `get_epic_games`, sequential view: key from collection, count and
free-only flag; a fresh entry is served as-is, otherwise the fetched
collection offers (`outcome` is the extracted `collectionOffers`
array, missing levels collapsing to an empty list; `error` any
exception) are filtered — when `free_only` — to entries whose
`price.totalPrice.discountPrice` (no default here) equals 0, sliced to
`count`, transformed with `_transform_epic_game`, and stored with
expiry `tStore + TTL`; an exception stores the empty games list. -/
def get_epic_games (count : ℤ) (collection : String) (free_only : Bool)
    (outcome : Except ProbeErr (List EpicRawGame))
    (TTL : ℚ) (cache : Cache EpicGamesR) (tCheck tStore : ℚ) :
    EpicGamesR × Cache EpicGamesR × Bool :=
  let key := epicGamesKey collection count free_only
  match freshVal cache key tCheck with
  | some v => (v, cache, false)
  | none =>
    let result : EpicGamesR :=
      match outcome with
      | .ok elements =>
        let games_raw :=
          if free_only then elements.filter (fun g => epicDiscountChain g == some 0)
          else elements
        ⟨(pySliceTo games_raw count).map _transform_epic_game, tStore⟩
      | .error _ => ⟨[], tStore⟩
    (result, Function.update cache key (some (tStore + TTL, result)), true)

/- ### Helper lemmas -/

/-- When no fresh entry exists for a key, the fast-path read misses. -/
theorem freshVal_eq_none {α : Type} {cache : Cache α} {key : String} {t : ℚ}
    (h : noFresh cache key t) : freshVal cache key t = none := by
  unfold freshVal
  split
  next exp v heq =>
    have hle := h exp v heq
    rw [if_neg (not_lt.mpr hle)]
  next => rfl

/-- The empty cache holds nothing fresh. -/
theorem noFresh_empty {α : Type} (key : String) (t : ℚ) :
    noFresh (emptyCache (α := α)) key t := by
  intro exp v h
  simp [emptyCache] at h

/-- C5: every probe function is total at its boundary: for every
upstream outcome — transport error, timeout, DNS failure, malformed
data, missing fields, non-200 status — each probe returns a
normalized record, which on every failure path is the canonical
offline record; no failure kind escapes the probe. -/
theorem probe_total_contract :
    (∀ e e', ping_minecraft_server (.error e) (.error e') = mcOffline) ∧
    (∀ j b, (ping_minecraft_server j b).is_online = true ∨
      ping_minecraft_server j b = mcOffline) ∧
    (∀ e, ping_hytale_nitrado (.error e) = hyOffline) ∧
    (∀ st d, st ≠ 200 → ping_hytale_nitrado (.ok (st, d)) = hyOffline) ∧
    (∀ o, (ping_hytale_nitrado o).is_online = true ∨ ping_hytale_nitrado o = hyOffline) ∧
    (∀ e p, ping_hytale_hyquery (.error e) p = hyOffline) ∧
    (∀ o p, (ping_hytale_hyquery o p).is_online = true ∨
      ping_hytale_hyquery o p = hyOffline) := by
  refine ⟨fun e e' => rfl, fun j b => ?_, fun e => rfl, fun st d h => ?_,
    fun o => ?_, fun e p => rfl, fun o p => ?_⟩
  · cases j with
    | ok s => left; rfl
    | error e =>
      cases b with
      | ok s => left; rfl
      | error e' => right; rfl
  · simp [ping_hytale_nitrado, if_pos h]
  · cases o with
    | error e => right; rfl
    | ok p =>
      obtain ⟨st, d⟩ := p
      by_cases h : st = 200
      · subst h
        left
        simp [ping_hytale_nitrado]
      · right
        simp [ping_hytale_nitrado, if_pos h]
  · cases o with
    | error e => right; rfl
    | ok resp =>
      simp only [ping_hytale_hyquery]
      by_cases h1 : resp.length < 8
      · right; rw [if_pos h1]
      · rw [if_neg h1]
        by_cases h2 : resp.take 8 ≠ magicBytes
        · right; rw [if_pos h2]
        · rw [if_neg h2]
          cases hp : p (resp.drop 8) with
          | none => right; rfl
          | some d => left; rfl

/-- C5 witness: a timed-out Nitrado query with a non-200 retry yields
the offline record. -/
theorem probe_total_contract_witness :
    ping_hytale_nitrado (.ok (503, ⟨none, none, none, none, none, none, []⟩)) = hyOffline :=
  probe_total_contract.2.2.2.1 503 ⟨none, none, none, none, none, none, []⟩ (by decide)

/-- C7: a HyQuery response shorter than 8 bytes, or one whose first 8
bytes are not the magic preamble, yields the offline record; so does a
UTF-8/JSON parse failure of the bytes after the preamble. -/
theorem hyquery_magic_validation (resp : List ℕ) (parse : List ℕ → Option HyQueryJson) :
    (resp.length < 8 → ping_hytale_hyquery (.ok resp) parse = hyOffline) ∧
    (resp.take 8 ≠ magicBytes → ping_hytale_hyquery (.ok resp) parse = hyOffline) ∧
    (parse (resp.drop 8) = none → ping_hytale_hyquery (.ok resp) parse = hyOffline) := by
  refine ⟨fun h => ?_, fun h => ?_, fun h => ?_⟩
  · simp only [ping_hytale_hyquery]
    rw [if_pos h]
  · simp only [ping_hytale_hyquery]
    by_cases h1 : resp.length < 8
    · rw [if_pos h1]
    · rw [if_neg h1, if_pos h]
  · simp only [ping_hytale_hyquery]
    by_cases h1 : resp.length < 8
    · rw [if_pos h1]
    · rw [if_neg h1]
      by_cases h2 : resp.take 8 ≠ magicBytes
      · rw [if_pos h2]
      · rw [if_neg h2, h]

/-- C7 witness: a three-byte response (too short, wrong preamble) with
a failing parser yields the offline record. -/
theorem hyquery_magic_validation_witness :
    ping_hytale_hyquery (.ok [72, 89, 81]) (fun _ => none) = hyOffline :=
  (hyquery_magic_validation [72, 89, 81] (fun _ => none)).1 (by decide)

/-- The transform's `is_free` is exactly the defaulted numeric
discount-price comparison. -/
theorem epic_is_free_eq (g : EpicRawGame) :
    (_transform_epic_game g).is_free = ((epicDiscountChain g).getD (-1) == 0) := rfl

/-- C8: an Epic entry normalizes `is_free = true` exactly when the
numeric `price.totalPrice.discountPrice` field is present and equals
0; any two entries with the same numeric discount-price chain get the
same `is_free`, so no formatted price label influences it. -/
theorem epic_is_free_iff (g : EpicRawGame) :
    ((_transform_epic_game g).is_free = true ↔ epicDiscountChain g = some 0) ∧
    (∀ g' : EpicRawGame, epicDiscountChain g' = epicDiscountChain g →
      (_transform_epic_game g').is_free = (_transform_epic_game g).is_free) := by
  constructor
  · rw [epic_is_free_eq]
    cases h : epicDiscountChain g with
    | none => simp
    | some v => simp [beq_iff_eq]
  · intro g' hg
    rw [epic_is_free_eq, epic_is_free_eq, hg]

/-- C8 witness: the demo entry with discount price 0 and a `$19.99`
original-price label is free. -/
theorem epic_is_free_iff_witness :
    (_transform_epic_game epicDemoFree).is_free = true :=
  (epic_is_free_iff epicDemoFree).1.mpr (by decide)

/-- C10: on a cache miss, the universe endpoint always stores its
result; when the upstream JSON simply lacks a `universeId` field the
stored and returned `universe_id` is the string `"None"`, and a true
`None` is returned exactly when the request or decode raised. -/
theorem roblox_universe_none_string (placeId : ℤ)
    (outcome : Except ProbeErr (Option ℤ)) (TTL : ℚ)
    (cache : Cache RobloxUniverseR) (t1 t2 : ℚ)
    (hmiss : noFresh cache (toString placeId) t1) :
    (get_roblox_universe_id placeId outcome TTL cache t1 t2).2.2 = true ∧
    (get_roblox_universe_id placeId outcome TTL cache t1 t2).2.1 (toString placeId)
      = some (t2 + TTL, (get_roblox_universe_id placeId outcome TTL cache t1 t2).1) ∧
    (outcome = .ok none →
      (get_roblox_universe_id placeId outcome TTL cache t1 t2).1.universe_id
        = some "None") ∧
    ((get_roblox_universe_id placeId outcome TTL cache t1 t2).1.universe_id = none ↔
      ∃ e, outcome = .error e) := by
  simp only [get_roblox_universe_id, freshVal_eq_none hmiss]
  cases outcome with
  | ok uid =>
    cases uid with
    | none => simp [Function.update_same, pyStrOfOptInt]
    | some v => simp [Function.update_same, pyStrOfOptInt]
  | error e => simp [Function.update_same]

/-- C10 witness: a response without `universeId` stores the string
`"None"`. -/
theorem roblox_universe_none_string_witness :
    (get_roblox_universe_id 123 (.ok none) 600 emptyCache 0 0).1.universe_id
      = some "None" :=
  (roblox_universe_none_string 123 (.ok none) 600 emptyCache 0 0
    (noFresh_empty _ _)).2.2.1 rfl

/-- A fresh hit serves the cached Steam entry without probing. -/
theorem get_steam_hit (appid : ℤ) (o : Except ProbeErr (Option ℤ)) (T : ℚ)
    (cache : Cache SteamPlayerR) (tC tS : ℚ) (v : SteamPlayerR)
    (h : freshVal cache (toString appid) tC = some v) :
    get_steam_player_count appid o T cache tC tS = (v, cache, false) := by
  simp only [get_steam_player_count, h]

/-- A miss probes and stores the Steam result with expiry `tS + T`. -/
theorem get_steam_miss (appid : ℤ) (o : Except ProbeErr (Option ℤ)) (T : ℚ)
    (cache : Cache SteamPlayerR) (tC tS : ℚ)
    (h : freshVal cache (toString appid) tC = none) :
    (get_steam_player_count appid o T cache tC tS).2.2 = true ∧
    (get_steam_player_count appid o T cache tC tS).2.1 (toString appid)
      = some (tS + T, (get_steam_player_count appid o T cache tC tS).1) := by
  simp only [get_steam_player_count, h]
  refine ⟨trivial, ?_⟩
  simp [Function.update_same]

/-- C3: starting with no entry for the key and an instantaneous first
call at `t1` (its probe completes at its check instant), the first
call probes; a second call at `t2` re-probes exactly when at least `T`
seconds elapsed, and is served from the cache when fewer than `T`
elapsed — so two calls less than `T` apart probe once in total. -/
theorem steam_ttl_refresh (appid : ℤ) (o1 o2 : Except ProbeErr (Option ℤ))
    (T t1 t2 t2s : ℚ) (_hT : 0 < T) (cache : Cache SteamPlayerR)
    (h0 : cache (toString appid) = none) (_h12 : t1 ≤ t2) :
    (get_steam_player_count appid o1 T cache t1 t1).2.2 = true ∧
    (t2 - t1 < T →
      (get_steam_player_count appid o2 T
        (get_steam_player_count appid o1 T cache t1 t1).2.1 t2 t2s).2.2 = false) ∧
    (T ≤ t2 - t1 →
      (get_steam_player_count appid o2 T
        (get_steam_player_count appid o1 T cache t1 t1).2.1 t2 t2s).2.2 = true) := by
  have hfresh1 : freshVal cache (toString appid) t1 = none := by
    unfold freshVal
    rw [h0]
  obtain ⟨hp1, hc1⟩ := get_steam_miss appid o1 T cache t1 t1 hfresh1
  refine ⟨hp1, fun hlt => ?_, fun hge => ?_⟩
  · have hf2 : freshVal (get_steam_player_count appid o1 T cache t1 t1).2.1
        (toString appid) t2 = some (get_steam_player_count appid o1 T cache t1 t1).1 := by
      simp only [freshVal, hc1]
      rw [if_pos (by linarith)]
    rw [get_steam_hit _ _ _ _ _ _ _ hf2]
  · have hf2 : freshVal (get_steam_player_count appid o1 T cache t1 t1).2.1
        (toString appid) t2 = none := by
      simp only [freshVal, hc1]
      rw [if_neg (by linarith)]
    exact (get_steam_miss _ _ _ _ _ _ hf2).1

/-- C3 witness: with TTL 600, a call at t=0 probes, a second call
at t=10 is served from the cache, and one at t=600 re-probes. -/
theorem steam_ttl_refresh_witness :
    (get_steam_player_count 440 (.ok (some 5)) 600 emptyCache 0 0).2.2 = true ∧
    (get_steam_player_count 440 (.ok (some 7)) 600
      (get_steam_player_count 440 (.ok (some 5)) 600 emptyCache 0 0).2.1 10 10).2.2
      = false ∧
    (get_steam_player_count 440 (.ok (some 7)) 600
      (get_steam_player_count 440 (.ok (some 5)) 600 emptyCache 0 0).2.1 600 600).2.2
      = true := by
  have h1 := steam_ttl_refresh 440 (.ok (some 5)) (.ok (some 7)) 600 0 10 10
    (by norm_num) emptyCache rfl (by norm_num)
  have h2 := steam_ttl_refresh 440 (.ok (some 5)) (.ok (some 7)) 600 0 600 600
    (by norm_num) emptyCache rfl (by norm_num)
  exact ⟨h1.1, h1.2.1 (by norm_num), h2.2.2 (by norm_num)⟩

/-- A fresh hit serves the cached Roblox status entry without
contacting upstream. -/
theorem get_roblox_status_hit (placeId universeId : Option String)
    (ro : Except ProbeErr (Option ℤ))
    (go : Except ProbeErr (Option (List RobloxGameJson)))
    (TTL : ℚ) (cache : Cache RobloxStatusR) (tC tS : ℚ) (v : RobloxStatusR)
    (h : freshVal cache (robloxStatusKey placeId universeId) tC = some v) :
    get_roblox_status placeId universeId ro go TTL cache tC tS = (v, cache, false) := by
  simp only [get_roblox_status, h]

/-- C9: a request carrying only a (truthy) `place_id` whose
place-to-universe resolution comes back without a `universeId`
returns the offline record, stores exactly that record under the
request's key with expiry `tS + TTL`, and every later call for the
same key before expiry is served that stored record without
contacting upstream. -/
theorem roblox_place_without_universe (p : String)
    (gamesOutcome : Except ProbeErr (Option (List RobloxGameJson)))
    (resolve2 : Except ProbeErr (Option ℤ))
    (games2 : Except ProbeErr (Option (List RobloxGameJson)))
    (TTL : ℚ) (cache : Cache RobloxStatusR) (t1c t1s t2c t2s : ℚ)
    (hp : p ≠ "")
    (hmiss : noFresh cache (robloxStatusKey (some p) none) t1c)
    (hfresh : t2c < t1s + TTL) :
    (get_roblox_status (some p) none (.ok none) gamesOutcome TTL cache t1c t1s).1
      = robloxOffline ∧
    (get_roblox_status (some p) none (.ok none) gamesOutcome TTL cache t1c t1s).2.1
        (robloxStatusKey (some p) none) = some (t1s + TTL, robloxOffline) ∧
    get_roblox_status (some p) none resolve2 games2 TTL
        (get_roblox_status (some p) none (.ok none) gamesOutcome TTL cache t1c t1s).2.1
        t2c t2s
      = (robloxOffline,
         (get_roblox_status (some p) none (.ok none) gamesOutcome TTL cache t1c t1s).2.1,
         false) := by
  have htruthy : (truthyS (some p) && !truthyS none) = true := by
    simp [truthyS, bne_iff_ne, hp]
  have hcall1 : get_roblox_status (some p) none (.ok none) gamesOutcome TTL cache t1c t1s
      = (robloxOffline,
         Function.update cache (robloxStatusKey (some p) none)
           (some (t1s + TTL, robloxOffline)), true) := by
    simp only [get_roblox_status, freshVal_eq_none hmiss, htruthy]
    rfl
  refine ⟨by rw [hcall1], ?_, ?_⟩
  · rw [hcall1]
    simp [Function.update_same]
  · have hf2 : freshVal
        (get_roblox_status (some p) none (.ok none) gamesOutcome TTL cache t1c t1s).2.1
        (robloxStatusKey (some p) none) t2c = some robloxOffline := by
      rw [hcall1]
      simp only [freshVal, Function.update_same]
      rw [if_pos hfresh]
    rw [get_roblox_status_hit _ _ _ _ _ _ _ _ _ hf2, hcall1]

/-- C9 witness: place id `"12345"` resolving to no universe stores and
returns the offline record; a call 10 seconds later is served it from
the cache. -/
theorem roblox_place_without_universe_witness :
    (get_roblox_status (some "12345") none (.ok none) (.ok none) 600 emptyCache 0 0).1
      = robloxOffline ∧
    get_roblox_status (some "12345") none (.error .transport) (.ok none) 600
        (get_roblox_status (some "12345") none (.ok none) (.ok none) 600
          emptyCache 0 0).2.1 10 10
      = (robloxOffline,
         (get_roblox_status (some "12345") none (.ok none) (.ok none) 600
           emptyCache 0 0).2.1, false) := by
  have h := roblox_place_without_universe "12345" (.ok none) (.error .transport)
    (.ok none) 600 emptyCache 0 0 10 10 (by decide) (noFresh_empty _ _) (by norm_num)
  exact ⟨h.1, h.2.2⟩

/-- String concatenation acts as concatenation of character data. -/
theorem string_data_append (a b : String) : (a ++ b).data = a.data ++ b.data := by
  cases a; cases b; rfl

/-- An explicitly given port is the effective port for any method. -/
theorem hytaleEffectivePort_some (p : ℕ) (m : String) :
    hytaleEffectivePort (some p) m = p := by
  unfold hytaleEffectivePort
  split <;> rfl

/-- C6: the Hytale effective port is resolved before the key is built,
with the method-dependent default (game port 5520 for `"hyquery"`,
query port 5523 otherwise); an explicit port equal to the resolved
default yields the same cache key as an omitted port, and two requests
that differ only in method always get distinct keys. -/
theorem hytale_key_resolution (host m m1 m2 : String) (port : Option ℕ)
    (hm : m1 ≠ m2) :
    hytaleEffectivePort none "hyquery" = HYTALE_DEFAULT_GAME_PORT ∧
    (m ≠ "hyquery" → hytaleEffectivePort none m = HYTALE_DEFAULT_QUERY_PORT) ∧
    hytaleKey host (some (hytaleEffectivePort none m)) m = hytaleKey host none m ∧
    hytaleKey host port m1 ≠ hytaleKey host port m2 := by
  refine ⟨rfl, fun hq => ?_, ?_, fun h => ?_⟩
  · unfold hytaleEffectivePort
    rw [if_neg hq]
    rfl
  · unfold hytaleKey
    rw [hytaleEffectivePort_some]
  · unfold hytaleKey at h
    have hd := congrArg String.data h
    simp only [string_data_append, List.append_assoc] at hd
    have h1 := List.append_cancel_left hd
    have h2 := List.append_cancel_left h1
    have h3 := List.append_cancel_left h2
    cases port with
    | some pp =>
      rw [hytaleEffectivePort_some, hytaleEffectivePort_some] at h3
      have h4 := List.append_cancel_left h3
      have h5 := List.append_cancel_left h4
      exact hm (by cases m1; cases m2; exact congrArg String.mk h5)
    | none =>
      have d1 : (toString (5520 : ℕ)).data = ['5', '5', '2', '0'] := by decide
      have d2 : (toString (5523 : ℕ)).data = ['5', '5', '2', '3'] := by decide
      by_cases q1 : m1 = "hyquery" <;> by_cases q2 : m2 = "hyquery"
      · exact hm (q1.trans q2.symm)
      · have e1 : hytaleEffectivePort none m1 = 5520 := by
          unfold hytaleEffectivePort; rw [if_pos q1]; rfl
        have e2 : hytaleEffectivePort none m2 = 5523 := by
          unfold hytaleEffectivePort; rw [if_neg q2]; rfl
        rw [e1, e2, d1, d2] at h3
        simp at h3
      · have e1 : hytaleEffectivePort none m1 = 5523 := by
          unfold hytaleEffectivePort; rw [if_neg q1]; rfl
        have e2 : hytaleEffectivePort none m2 = 5520 := by
          unfold hytaleEffectivePort; rw [if_pos q2]; rfl
        rw [e1, e2, d1, d2] at h3
        simp at h3
      · have e1 : hytaleEffectivePort none m1 = 5523 := by
          unfold hytaleEffectivePort; rw [if_neg q1]; rfl
        have e2 : hytaleEffectivePort none m2 = 5523 := by
          unfold hytaleEffectivePort; rw [if_neg q2]; rfl
        rw [e1, e2] at h3
        have h4 := List.append_cancel_left h3
        have h5 := List.append_cancel_left h4
        exact hm (by cases m1; cases m2; exact congrArg String.mk h5)

/-- C6 witness: an explicit port 5520 collides with an omitted port
for `"hyquery"`, and the two methods give distinct keys. -/
theorem hytale_key_resolution_witness :
    hytaleKey "play.hytale.com" (some 5520) "hyquery"
      = hytaleKey "play.hytale.com" none "hyquery" ∧
    hytaleKey "play.hytale.com" none "hyquery"
      ≠ hytaleKey "play.hytale.com" none "nitrado" := by
  have h := hytale_key_resolution "play.hytale.com" "hyquery" "hyquery" "nitrado"
    none (by decide)
  exact ⟨h.2.2.1, h.2.2.2⟩

/- ### Invariant proofs for the single-flight gate -/

section GateProofs
variable {n : ℕ} {V : Type}

theorem gateRun_append (TTL : ℚ) (probeFn : ℕ → V) (s : GateSys n V)
    (l1 l2 : List (GateAct n)) :
    gateRun TTL probeFn s (l1 ++ l2) = gateRun TTL probeFn (gateRun TTL probeFn s l1) l2 := by
  induction l1 generalizing s with
  | nil => rfl
  | cons a rest ih => simp [gateRun, ih]

theorem isDone_iff {pc : CallerPC V} : isDone pc = true ↔ ∃ w, pc = .done w := by
  cases pc <;> simp [isDone]

theorem exists_probing_update_false (callers : Fin n → CallerPC V) (i : Fin n)
    (pc : CallerPC V) (hpc : isProbing pc = false) (hi : isProbing (callers i) = false) :
    (∃ j, isProbing (Function.update callers i pc j) = true)
      ↔ (∃ j, isProbing (callers j) = true) := by
  constructor
  · rintro ⟨j, hj⟩
    rcases eq_or_ne j i with rfl | hne
    · rw [Function.update_same, hpc] at hj
      cases hj
    · rw [Function.update_noteq hne] at hj
      exact ⟨j, hj⟩
  · rintro ⟨j, hj⟩
    rcases eq_or_ne j i with rfl | hne
    · rw [hi] at hj
      cases hj
    · exact ⟨j, by rwa [Function.update_noteq hne]⟩

theorem mutex_update_false {callers : Fin n → CallerPC V}
    (hmut : ∀ i j, isProbing (callers i) = true → isProbing (callers j) = true → i = j)
    (i : Fin n) (pc : CallerPC V) (hpc : isProbing pc = false) :
    ∀ a b, isProbing (Function.update callers i pc a) = true →
      isProbing (Function.update callers i pc b) = true → a = b := by
  intro a b ha hb
  rcases eq_or_ne a i with rfl | hna
  · rw [Function.update_same, hpc] at ha
    cases ha
  · rcases eq_or_ne b i with rfl | hnb
    · rw [Function.update_same, hpc] at hb
      cases hb
    · rw [Function.update_noteq hna] at ha
      rw [Function.update_noteq hnb] at hb
      exact hmut a b ha hb

theorem mutexInv_step (TTL : ℚ) (probeFn : ℕ → V) (s : GateSys n V) (a : GateAct n)
    (hs : MutexInv s) : MutexInv (gateStep TTL probeFn s a) := by
  obtain ⟨hlock, hmut⟩ := hs
  cases a with
  | advance δ => exact ⟨hlock, hmut⟩
  | run i =>
    cases hpc : s.callers i with
    | init =>
      have hip : isProbing (s.callers i) = false := by rw [hpc]; rfl
      cases hf : gateFresh s.cache s.time with
      | some v =>
        simp only [gateStep, hpc, hf]
        refine ⟨?_, ?_⟩
        · dsimp only
          rw [exists_probing_update_false s.callers i (.done v) rfl hip]
          exact hlock
        · dsimp only
          exact mutex_update_false hmut i (.done v) rfl
      | none =>
        simp only [gateStep, hpc, hf]
        refine ⟨?_, ?_⟩
        · dsimp only
          rw [exists_probing_update_false s.callers i (.wait s.time) rfl hip]
          exact hlock
        · dsimp only
          exact mutex_update_false hmut i (.wait s.time) rfl
    | wait now =>
      have hip : isProbing (s.callers i) = false := by rw [hpc]; rfl
      by_cases hl : s.lockHeld = true
      · simp only [gateStep, hpc, if_pos hl]
        exact ⟨hlock, hmut⟩
      · have hnone : ∀ j, isProbing (s.callers j) = false := by
          intro j
          cases h : isProbing (s.callers j) with
          | false => rfl
          | true => exact absurd (hlock.mpr ⟨j, h⟩) hl
        cases hf : gateFresh s.cache now with
        | some v =>
          simp only [gateStep, hpc, if_neg hl, hf]
          refine ⟨?_, ?_⟩
          · dsimp only
            rw [exists_probing_update_false s.callers i (.done v) rfl hip]
            exact hlock
          · dsimp only
            exact mutex_update_false hmut i (.done v) rfl
        | none =>
          simp only [gateStep, hpc, if_neg hl, hf]
          refine ⟨?_, ?_⟩
          · dsimp only
            refine iff_of_true rfl ⟨i, ?_⟩
            rw [Function.update_same]
            rfl
          · dsimp only
            intro a b ha hb
            rcases eq_or_ne a i with hai | hna
            · rcases eq_or_ne b i with hbi | hnb
              · rw [hai, hbi]
              · rw [Function.update_noteq hnb, hnone b] at hb
                cases hb
            · rw [Function.update_noteq hna, hnone a] at ha
              cases ha
    | probing now idx =>
      have hip : isProbing (s.callers i) = true := by rw [hpc]; rfl
      simp only [gateStep, hpc]
      refine ⟨?_, ?_⟩
      · dsimp only
        refine iff_of_false (by simp) ?_
        rintro ⟨j, hj⟩
        rcases eq_or_ne j i with hji | hne
        · rw [hji, Function.update_same] at hj
          cases hj
        · rw [Function.update_noteq hne] at hj
          exact hne (hmut j i hj hip)
      · dsimp only
        exact mutex_update_false hmut i (.done (probeFn idx)) rfl
    | done v =>
      simp only [gateStep, hpc]
      exact ⟨hlock, hmut⟩
theorem gateFresh_none_of_stale {c : Option (ℚ × V)} {t : ℚ}
    (h : ∀ exp v, c = some (exp, v) → exp ≤ t) : gateFresh c t = none := by
  cases hc : c with
  | none => rfl
  | some p =>
    obtain ⟨exp, v⟩ := p
    simp only [gateFresh]
    rw [if_neg (not_lt.mpr (h exp v hc))]

theorem gateInv_step (TTL : ℚ) (probeFn : ℕ → V) (c0 : Option (ℚ × V)) (t0 : ℚ)
    (hstale : ∀ exp v, c0 = some (exp, v) → exp ≤ t0)
    (s : GateSys n V) (a : GateAct n) (hm : MutexInv s) (hs : GateInv c0 t0 s) :
    GateInv c0 t0 (gateStep TTL probeFn s a) := by
  obtain ⟨htime, hcap, hpre, hcno, hcyes⟩ := hs
  cases a with
  | advance δ =>
    have hmax : (0 : ℚ) ≤ max δ 0 := le_max_right δ 0
    refine ⟨?_, ?_, hpre, hcno, hcyes⟩
    · dsimp only [gateStep]
      linarith
    · dsimp only [gateStep]
      intro j now hnow
      obtain ⟨h1, h2⟩ := hcap j now hnow
      exact ⟨h1, by linarith⟩
  | run i =>
    cases hpc : s.callers i with
    | init =>
      cases hf : gateFresh s.cache s.time with
      | some v =>
        simp only [gateStep, hpc, hf]
        refine ⟨htime, ?_, ?_, ?_, ?_⟩
        · dsimp only
          intro j now hnow
          rcases eq_or_ne j i with hji | hne
          · rw [hji, Function.update_same] at hnow
            cases hnow
          · rw [Function.update_noteq hne] at hnow
            exact hcap j now hnow
        · dsimp only
          intro h0
          obtain ⟨hc, _⟩ := hpre h0
          have hstnone : gateFresh s.cache s.time = none := by
            rw [hc]
            exact gateFresh_none_of_stale
              (fun exp w hh => le_trans (hstale exp w hh) htime)
          rw [hf] at hstnone
          cases hstnone
        · dsimp only
          intro hall
          apply hcno
          intro j
          rcases eq_or_ne j i with hji | hne
          · rw [hji, hpc]
            rfl
          · have hh := hall j
            rwa [Function.update_noteq hne] at hh
        · dsimp only
          intro j hj
          rcases eq_or_ne j i with hji | hne
          · rw [hji, Function.update_same] at hj
            cases hj
          · rw [Function.update_noteq hne] at hj
            exact hcyes j hj
      | none =>
        simp only [gateStep, hpc, hf]
        refine ⟨htime, ?_, ?_, ?_, ?_⟩
        · dsimp only
          intro j now hnow
          rcases eq_or_ne j i with hji | hne
          · rw [hji, Function.update_same] at hnow
            simp only [capturedNow] at hnow
            obtain rfl := Option.some.inj hnow
            exact ⟨htime, le_refl _⟩
          · rw [Function.update_noteq hne] at hnow
            exact hcap j now hnow
        · dsimp only
          intro h0
          obtain ⟨hc, hd⟩ := hpre h0
          refine ⟨hc, fun j => ?_⟩
          rcases eq_or_ne j i with hji | hne
          · rw [hji, Function.update_same]
            rfl
          · rw [Function.update_noteq hne]
            exact hd j
        · dsimp only
          intro hall
          apply hcno
          intro j
          rcases eq_or_ne j i with hji | hne
          · rw [hji, hpc]
            rfl
          · have hh := hall j
            rwa [Function.update_noteq hne] at hh
        · dsimp only
          intro j hj
          rcases eq_or_ne j i with hji | hne
          · rw [hji, Function.update_same] at hj
            cases hj
          · rw [Function.update_noteq hne] at hj
            exact hcyes j hj
    | wait now₀ =>
      have hcapi : t0 ≤ now₀ ∧ now₀ ≤ s.time := hcap i now₀ (by rw [hpc]; rfl)
      by_cases hl : s.lockHeld = true
      · simp only [gateStep, hpc, if_pos hl]
        exact ⟨htime, hcap, hpre, hcno, hcyes⟩
      · have hnoprob : ∀ j, isProbing (s.callers j) = false := by
          intro j
          cases h : isProbing (s.callers j) with
          | false => rfl
          | true => exact absurd (hm.lock_iff.mpr ⟨j, h⟩) hl
        cases hf : gateFresh s.cache now₀ with
        | some v =>
          simp only [gateStep, hpc, if_neg hl, hf]
          refine ⟨htime, ?_, ?_, ?_, ?_⟩
          · dsimp only
            intro j now hnow
            rcases eq_or_ne j i with hji | hne
            · rw [hji, Function.update_same] at hnow
              cases hnow
            · rw [Function.update_noteq hne] at hnow
              exact hcap j now hnow
          · dsimp only
            intro h0
            obtain ⟨hc, _⟩ := hpre h0
            have hstnone : gateFresh s.cache now₀ = none := by
              rw [hc]
              exact gateFresh_none_of_stale
                (fun exp w hh => le_trans (hstale exp w hh) hcapi.1)
            rw [hf] at hstnone
            cases hstnone
          · dsimp only
            intro hall
            apply hcno
            intro j
            rcases eq_or_ne j i with hji | hne
            · rw [hji, hpc]
              rfl
            · have hh := hall j
              rwa [Function.update_noteq hne] at hh
          · dsimp only
            intro j hj
            rcases eq_or_ne j i with hji | hne
            · rw [hji, Function.update_same] at hj
              cases hj
            · rw [Function.update_noteq hne] at hj
              exact hcyes j hj
        | none =>
          simp only [gateStep, hpc, if_neg hl, hf]
          refine ⟨htime, ?_, ?_, ?_, ?_⟩
          · dsimp only
            intro j now hnow
            rcases eq_or_ne j i with hji | hne
            · rw [hji, Function.update_same] at hnow
              simp only [capturedNow] at hnow
              obtain rfl := Option.some.inj hnow
              exact hcapi
            · rw [Function.update_noteq hne] at hnow
              exact hcap j now hnow
          · dsimp only
            intro h0
            obtain ⟨hc, hd⟩ := hpre h0
            refine ⟨hc, fun j => ?_⟩
            rcases eq_or_ne j i with hji | hne
            · rw [hji, Function.update_same]
              rfl
            · rw [Function.update_noteq hne]
              exact hd j
          · dsimp only
            intro hall
            have hh := hall i
            rw [Function.update_same] at hh
            cases hh
          · dsimp only
            intro j hj
            rw [hcno hnoprob]
    | probing now₀ idx =>
      have hip : isProbing (s.callers i) = true := by rw [hpc]; rfl
      simp only [gateStep, hpc]
      refine ⟨htime, ?_, ?_, ?_, ?_⟩
      · dsimp only
        intro j now hnow
        rcases eq_or_ne j i with hji | hne
        · rw [hji, Function.update_same] at hnow
          cases hnow
        · rw [Function.update_noteq hne] at hnow
          exact hcap j now hnow
      · dsimp only
        intro h0
        exact absurd h0 (Nat.succ_ne_zero _)
      · dsimp only
        intro _
        rw [hcyes i hip]
      · dsimp only
        intro j hj
        exfalso
        rcases eq_or_ne j i with hji | hne
        · rw [hji, Function.update_same] at hj
          cases hj
        · rw [Function.update_noteq hne] at hj
          exact hne (hm.mutex j i hj hip)
    | done v =>
      simp only [gateStep, hpc]
      exact ⟨htime, hcap, hpre, hcno, hcyes⟩

theorem gateGood_init (c0 : Option (ℚ × V)) (t0 : ℚ) :
    GateGood c0 t0 (gateInit n c0 t0) := by
  refine ⟨⟨?_, ?_⟩, le_refl _, ?_, ?_, ?_, ?_⟩
  · refine iff_of_false (by simp [gateInit]) ?_
    rintro ⟨i, hi⟩
    cases hi
  · intro i j hi
    cases hi
  · intro i now h
    cases h
  · intro _
    exact ⟨rfl, fun i => rfl⟩
  · intro _
    rfl
  · intro i h
    cases h

theorem gateGood_step (TTL : ℚ) (probeFn : ℕ → V) (c0 : Option (ℚ × V)) (t0 : ℚ)
    (hstale : ∀ exp v, c0 = some (exp, v) → exp ≤ t0)
    (s : GateSys n V) (a : GateAct n) (h : GateGood c0 t0 s) :
    GateGood c0 t0 (gateStep TTL probeFn s a) :=
  ⟨mutexInv_step TTL probeFn s a h.1, gateInv_step TTL probeFn c0 t0 hstale s a h.1 h.2⟩

theorem gateGood_run (TTL : ℚ) (probeFn : ℕ → V) (c0 : Option (ℚ × V)) (t0 : ℚ)
    (hstale : ∀ exp v, c0 = some (exp, v) → exp ≤ t0)
    (s : GateSys n V) (h : GateGood c0 t0 s) (l : List (GateAct n)) :
    GateGood c0 t0 (gateRun TTL probeFn s l) := by
  induction l generalizing s with
  | nil => exact h
  | cons a rest ih => exact ih _ (gateGood_step TTL probeFn c0 t0 hstale s a h)

theorem phasedInv_step (TTL : ℚ) (hTTL : 0 < TTL) (probeFn : ℕ → V)
    (c0 : Option (ℚ × V)) (t0 : ℚ)
    (hstale : ∀ exp v, c0 = some (exp, v) → exp ≤ t0)
    (s : GateSys n V) (a : GateAct n) (h : PhasedInv c0 t0 s) :
    PhasedInv c0 t0 (gateStep TTL probeFn s a) := by
  obtain ⟨⟨hm, hg⟩, hni, hph⟩ := h
  refine ⟨gateGood_step TTL probeFn c0 t0 hstale s a ⟨hm, hg⟩, ?_, ?_⟩
  · cases a with
    | advance δ => exact hni
    | run i =>
      cases hpc : s.callers i with
      | init => exact absurd hpc (hni i)
      | wait now₀ =>
        by_cases hl : s.lockHeld = true
        · simp only [gateStep, hpc, if_pos hl]
          exact hni
        · cases hf : gateFresh s.cache now₀ with
          | some v =>
            simp only [gateStep, hpc, if_neg hl, hf]
            intro j
            rcases eq_or_ne j i with hji | hne
            · rw [hji, Function.update_same]
              intro hq
              cases hq
            · rw [Function.update_noteq hne]
              exact hni j
          | none =>
            simp only [gateStep, hpc, if_neg hl, hf]
            intro j
            rcases eq_or_ne j i with hji | hne
            · rw [hji, Function.update_same]
              intro hq
              cases hq
            · rw [Function.update_noteq hne]
              exact hni j
      | probing now₀ idx =>
        simp only [gateStep, hpc]
        intro j
        rcases eq_or_ne j i with hji | hne
        · rw [hji, Function.update_same]
          intro hq
          cases hq
        · rw [Function.update_noteq hne]
          exact hni j
      | done v =>
        simp only [gateStep, hpc]
        exact hni
  · cases a with
    | advance δ =>
      rcases hph with h0 | hst
      · exact Or.inl h0
      · obtain ⟨a1, a2, a3, a4, exp, v, hcache, hdone, hwait⟩ := hst
        exact Or.inr ⟨a1, a2, a3, a4, exp, v, hcache, hdone, hwait⟩
    | run i =>
      cases hpc : s.callers i with
      | init => exact absurd hpc (hni i)
      | wait now₀ =>
        by_cases hl : s.lockHeld = true
        · simp only [gateStep, hpc, if_pos hl]
          exact hph
        · rcases hph with h0 | hst
          · have hcapi := hg.captured i now₀ (by rw [hpc]; rfl)
            obtain ⟨hc, _⟩ := hg.pre_store h0
            have hf : gateFresh s.cache now₀ = none := by
              rw [hc]
              exact gateFresh_none_of_stale
                (fun exp w hh => le_trans (hstale exp w hh) hcapi.1)
            simp only [gateStep, hpc, if_neg hl, hf]
            exact Or.inl h0
          · obtain ⟨a1, a2, a3, a4, exp, v, hcache, hdone, hwait⟩ := hst
            have hf : gateFresh s.cache now₀ = some v := by
              rw [hcache]
              simp only [gateFresh]
              rw [if_pos (hwait i now₀ hpc)]
            simp only [gateStep, hpc, if_neg hl, hf]
            right
            refine ⟨a1, a2, a3, ?_, exp, v, hcache, ?_, ?_⟩
            · dsimp only
              intro j
              rcases eq_or_ne j i with hji | hne
              · rw [hji, Function.update_same]
                rfl
              · rw [Function.update_noteq hne]
                exact a4 j
            · dsimp only
              intro j w hw
              rcases eq_or_ne j i with hji | hne
              · rw [hji, Function.update_same] at hw
                exact (CallerPC.done.inj hw).symm
              · rw [Function.update_noteq hne] at hw
                exact hdone j w hw
            · dsimp only
              intro j now hnw
              rcases eq_or_ne j i with hji | hne
              · rw [hji, Function.update_same] at hnw
                cases hnw
              · rw [Function.update_noteq hne] at hnw
                exact hwait j now hnw
      | probing now₀ idx =>
        have hip : isProbing (s.callers i) = true := by rw [hpc]; rfl
        rcases hph with h0 | hst
        · simp only [gateStep, hpc]
          right
          have hcount := hg.count_yes i hip
          refine ⟨?_, ?_, rfl, ?_, s.time + TTL, probeFn idx, rfl, ?_, ?_⟩
          · dsimp only
            omega
          · dsimp only
            omega
          · dsimp only
            intro j
            rcases eq_or_ne j i with hji | hne
            · rw [hji, Function.update_same]
              rfl
            · rw [Function.update_noteq hne]
              cases hq : isProbing (s.callers j) with
              | false => rfl
              | true => exact absurd (hm.mutex j i hq hip) hne
          · dsimp only
            intro j w hw
            rcases eq_or_ne j i with hji | hne
            · rw [hji, Function.update_same] at hw
              exact (CallerPC.done.inj hw).symm
            · rw [Function.update_noteq hne] at hw
              have hd := (hg.pre_store h0).2 j
              rw [hw] at hd
              cases hd
          · dsimp only
            intro j now hnw
            rcases eq_or_ne j i with hji | hne
            · rw [hji, Function.update_same] at hnw
              cases hnw
            · rw [Function.update_noteq hne] at hnw
              have hb := hg.captured j now (by rw [hnw]; rfl)
              have := hb.2
              linarith
        · obtain ⟨_, _, _, a4, _⟩ := hst
          have hq := a4 i
          rw [hpc] at hq
          cases hq
      | done v =>
        simp only [gateStep, hpc]
        exact hph

theorem phasedInv_run (TTL : ℚ) (hTTL : 0 < TTL) (probeFn : ℕ → V)
    (c0 : Option (ℚ × V)) (t0 : ℚ)
    (hstale : ∀ exp v, c0 = some (exp, v) → exp ≤ t0)
    (s : GateSys n V) (h : PhasedInv c0 t0 s) (l : List (GateAct n)) :
    PhasedInv c0 t0 (gateRun TTL probeFn s l) := by
  induction l generalizing s with
  | nil => exact h
  | cons a rest ih => exact ih _ (phasedInv_step TTL hTTL probeFn c0 t0 hstale s a h)

/-- C1: in any interleaving in which every caller performs its
fast-path check before the first probe completes (a stampede on one
key with no fresh entry, TTL positive), once all callers have
returned, exactly one probe was invoked, every caller returned the
same value, and along the whole schedule at most one probe was ever
in flight behind the provider gate. -/
theorem single_flight_stampede (hn : 0 < n)
    (TTL : ℚ) (hTTL : 0 < TTL) (c0 : Option (ℚ × V)) (t0 : ℚ)
    (hstale : ∀ exp v, c0 = some (exp, v) → exp ≤ t0)
    (probeFn : ℕ → V) (acts : List (GateAct n)) (k : ℕ)
    (hstart : ∀ i, (gateRun TTL probeFn (gateInit n c0 t0) (acts.take k)).callers i ≠ .init)
    (hnostore : (gateRun TTL probeFn (gateInit n c0 t0) (acts.take k)).stores = 0)
    (hdone : ∀ i, isDone ((gateRun TTL probeFn (gateInit n c0 t0) acts).callers i) = true) :
    (gateRun TTL probeFn (gateInit n c0 t0) acts).probeCount = 1 ∧
    (∃ v : V, ∀ i, (gateRun TTL probeFn (gateInit n c0 t0) acts).callers i = .done v) ∧
    (∀ m i j,
      isProbing ((gateRun TTL probeFn (gateInit n c0 t0) (acts.take m)).callers i) = true →
      isProbing ((gateRun TTL probeFn (gateInit n c0 t0) (acts.take m)).callers j) = true →
      i = j) := by
  have hgood : ∀ l : List (GateAct n),
      GateGood c0 t0 (gateRun TTL probeFn (gateInit n c0 t0) l) :=
    fun l => gateGood_run TTL probeFn c0 t0 hstale _ (gateGood_init c0 t0) l
  have hphk : PhasedInv c0 t0 (gateRun TTL probeFn (gateInit n c0 t0) (acts.take k)) :=
    ⟨hgood (acts.take k), hstart, Or.inl hnostore⟩
  have hsplit : gateRun TTL probeFn (gateInit n c0 t0) acts
      = gateRun TTL probeFn (gateRun TTL probeFn (gateInit n c0 t0) (acts.take k))
          (acts.drop k) := by
    rw [← gateRun_append, List.take_append_drop]
  have hphf : PhasedInv c0 t0 (gateRun TTL probeFn (gateInit n c0 t0) acts) := by
    rw [hsplit]
    exact phasedInv_run TTL hTTL probeFn c0 t0 hstale _ hphk (acts.drop k)
  obtain ⟨⟨hmf, hgf⟩, hnif, hphase⟩ := hphf
  rcases hphase with h0 | hst
  · exfalso
    have hd := (hgf.pre_store h0).2 ⟨0, hn⟩
    rw [hdone ⟨0, hn⟩] at hd
    cases hd
  · obtain ⟨a1, a2, a3, a4, exp, v, hcache, hdval, hwait⟩ := hst
    refine ⟨a2, ⟨v, fun i => ?_⟩,
      fun m i j hi hj => (hgood (acts.take m)).1.mutex i j hi hj⟩
    obtain ⟨w, hw⟩ := isDone_iff.mp (hdone i)
    rw [hw, hdval i w hw]


end GateProofs

/-- C1 witness: two concurrent callers on an empty cache with TTL 1
finish with exactly one probe and both return the probed value 42. -/
theorem single_flight_stampede_witness :
    stampedeFinal.probeCount = 1 ∧
    (∃ v : ℕ, ∀ i, stampedeFinal.callers i = .done v) := by
  have h := single_flight_stampede (by norm_num) 1 (by norm_num) none 0
    (fun _ _ hx => by exact Option.noConfusion hx) constProbe stampedeActs 2
    (by
      intro i
      fin_cases i <;>
          norm_num [stampedeActs, gateRun, gateStep, gateFresh, gateInit, constProbe,
            Function.update] <;>
        intro hh <;> cases hh)
    (by
      norm_num [stampedeActs, gateRun, gateStep, gateFresh, gateInit, constProbe,
        Function.update])
    (by
      intro i
      fin_cases i <;>
        norm_num [stampedeActs, gateRun, gateStep, gateFresh, gateInit, constProbe,
          Function.update, isDone])
  exact ⟨h.1, h.2.1⟩

/-- A fresh hit serves the cached Hytale entry without probing. -/
theorem get_hytale_hit (host : String) (port : Option ℕ) (method : String)
    (nOut : Except ProbeErr (ℕ × NitradoJson)) (uOut : Except ProbeErr (List ℕ))
    (parse : List ℕ → Option HyQueryJson) (TTL : ℚ) (cache : Cache HytaleResp)
    (tC tS : ℚ) (v : HytaleResp)
    (h : freshVal cache (hytaleKey host port method) tC = some v) :
    get_hytale_status host port method nOut uOut parse TTL cache tC tS
      = (v, cache, false) := by
  simp only [get_hytale_status, h]

/-- A miss probes, normalizes and stores with expiry `tS + TTL`. -/
theorem get_hytale_miss (host : String) (port : Option ℕ) (method : String)
    (nOut : Except ProbeErr (ℕ × NitradoJson)) (uOut : Except ProbeErr (List ℕ))
    (parse : List ℕ → Option HyQueryJson) (TTL : ℚ) (cache : Cache HytaleResp)
    (tC tS : ℚ)
    (h : freshVal cache (hytaleKey host port method) tC = none) :
    get_hytale_status host port method nOut uOut parse TTL cache tC tS
      = (normalizeHytale (hytaleProbe method nOut uOut parse) tS,
         Function.update cache (hytaleKey host port method)
           (some (tS + TTL, normalizeHytale (hytaleProbe method nOut uOut parse) tS)),
         true) := by
  simp only [get_hytale_status, h]

/-- With a nonpositive TTL, a sequential (nondecreasing-time) run of
Hytale status calls from an everywhere-stale cache probes on every
call and returns each call's own freshly normalized probe result. -/
theorem hytaleStatusRun_reprobes (TTL : ℚ) (hTTL : TTL ≤ 0) :
    ∀ (args : List HyCallArgs) (cache : Cache HytaleResp) (t : ℚ),
      (∀ k exp v, cache k = some (exp, v) → exp ≤ t) → hyTimesMono t args →
      (hytaleStatusRun TTL args cache).1
        = args.map (fun a => (normalizeHytale (hytaleProbeOf a) a.tStore, true)) := by
  intro args
  induction args with
  | nil =>
    intro cache t _ _
    rfl
  | cons a rest ih =>
    intro cache t hstale hmono
    obtain ⟨h1, h2, h3⟩ := hmono
    have hmiss : freshVal cache (hytaleKey a.host a.port a.method) a.tCheck = none := by
      apply freshVal_eq_none
      intro exp v hv
      exact le_trans (hstale _ exp v hv) h1
    have hstep := get_hytale_miss a.host a.port a.method a.nitradoOutcome a.udpOutcome
      a.parse TTL cache a.tCheck a.tStore hmiss
    have hstale' : ∀ k exp v,
        Function.update cache (hytaleKey a.host a.port a.method)
          (some (a.tStore + TTL,
            normalizeHytale (hytaleProbe a.method a.nitradoOutcome a.udpOutcome a.parse)
              a.tStore)) k = some (exp, v) → exp ≤ a.tStore := by
      intro k exp v hv
      rcases eq_or_ne k (hytaleKey a.host a.port a.method) with hk | hk
      · rw [hk, Function.update_same] at hv
        have hv' := Option.some.inj hv
        have hexp : a.tStore + TTL = exp := congrArg Prod.fst hv'
        linarith
      · rw [Function.update_noteq hk] at hv
        exact le_trans (hstale k exp v hv) (le_trans h1 h2)
    simp only [hytaleStatusRun, hstep, List.map]
    rw [ih _ a.tStore hstale' h3]
    rfl

/-- C4 counterexample: with TTL 0, two concurrent callers that both
check at time 0 finish after caller 0's probe stores at time 1 —
caller 1 never probes and is served the stored result, so with
caching "disabled" not every call invokes the upstream probe. -/
theorem ttl_zero_piggyback_counterexample :
    piggybackFinal.stores = 1 ∧ piggybackFinal.probeCount = 1 ∧
    piggybackFinal.callers 0 = .done 42 ∧ piggybackFinal.callers 1 = .done 42 ∧
    piggybackFinal.probeCount ≠ 2 := by
  refine ⟨?_, ?_, ?_, ?_, ?_⟩ <;>
    norm_num [piggybackFinal, piggybackActs, gateRun, gateStep, gateFresh, gateInit,
      constProbe, Function.update]

/-- The gate starts with no probe in flight. -/
theorem mutexInv_init {n : ℕ} {V : Type} (c0 : Option (ℚ × V)) (t0 : ℚ) :
    MutexInv (gateInit n c0 t0) := by
  refine ⟨iff_of_false (by simp [gateInit]) ?_, ?_⟩
  · rintro ⟨l, hl⟩
    cases hl
  · intro l m hl
    cases hl

/-- The lock/probe discipline holds along any schedule. -/
theorem mutexInv_run {n : ℕ} {V : Type} (TTL : ℚ) (probeFn : ℕ → V) (s : GateSys n V)
    (h : MutexInv s) (l : List (GateAct n)) : MutexInv (gateRun TTL probeFn s l) := by
  induction l generalizing s with
  | nil => exact h
  | cons a rest ih => exact ih _ (mutexInv_step TTL probeFn s a h)

/-- C4 (amended): with TTL ≤ 0 no stored entry is fresh at any later
check instant: every sequential (non-overlapping) call re-probes and
returns its own normalized probe result, never a stored one; probes
remain serialized through the gate (at most one in flight) in every
interleaving. A caller already waiting while a probe is in flight may
still be served that probe's result (see the counterexample). -/
theorem ttl_nonpositive_disables_cache (TTL : ℚ) (hTTL : TTL ≤ 0)
    (args : List HyCallArgs) (cache : Cache HytaleResp) (t : ℚ)
    (hstale : ∀ k exp v, cache k = some (exp, v) → exp ≤ t)
    (hmono : hyTimesMono t args) :
    (hytaleStatusRun TTL args cache).1
      = args.map (fun a => (normalizeHytale (hytaleProbeOf a) a.tStore, true)) ∧
    (∀ {V : Type} {n : ℕ} (probeFn : ℕ → V) (c0 : Option (ℚ × V)) (t0 : ℚ)
      (acts : List (GateAct n)) (i j : Fin n),
      isProbing ((gateRun TTL probeFn (gateInit n c0 t0) acts).callers i) = true →
      isProbing ((gateRun TTL probeFn (gateInit n c0 t0) acts).callers j) = true →
      i = j) := by
  constructor
  · exact hytaleStatusRun_reprobes TTL hTTL args cache t hstale hmono
  · intro V n probeFn c0 t0 acts i j hi hj
    exact (mutexInv_run TTL probeFn _ (mutexInv_init c0 t0) acts).mutex i j hi hj

/-- C4 witness: two sequential calls with TTL 0, one second apart,
both probe and both return their own (distinct) probe results. -/
theorem ttl_nonpositive_disables_cache_witness :
    (hytaleStatusRun 0
      [⟨"h.example.com", none, "nitrado", .error .timeout, .error .timeout,
         fun _ => none, 0, 0⟩,
       ⟨"h.example.com", none, "nitrado", .ok (200, ⟨some "S", some "1.0", some 20,
         some 7, some 3, some "W", []⟩), .error .timeout, fun _ => none, 1, 1⟩]
      emptyCache).1
      = [(normalizeHytale hyOffline 0, true),
         (normalizeHytale (ping_hytale_nitrado (.ok (200, ⟨some "S", some "1.0",
            some 20, some 7, some 3, some "W", []⟩))) 1, true)] := by
  have h := ttl_nonpositive_disables_cache 0 le_rfl
    [⟨"h.example.com", none, "nitrado", .error .timeout, .error .timeout,
       fun _ => none, 0, 0⟩,
     ⟨"h.example.com", none, "nitrado", .ok (200, ⟨some "S", some "1.0", some 20,
       some 7, some 3, some "W", []⟩), .error .timeout, fun _ => none, 1, 1⟩]
    emptyCache 0 (fun k exp v hv => by simp [emptyCache] at hv)
    (by exact ⟨le_refl 0, le_refl 0, by norm_num, by norm_num, trivial⟩)
  rw [h.1]
  rfl

/-- The code's Minecraft endpoint probes once per request. -/
theorem serverStatusRun_count (reqs : List MCReq) :
    (serverStatusRun reqs).2 = reqs.length := by
  induction reqs with
  | nil => rfl
  | cons r rest ih => simp [serverStatusRun, ih]

/-- A miss on the Roblox status cache always contacts upstream and
stores the returned result under the key with expiry `tS + TTL`. -/
theorem get_roblox_status_miss (placeId universeId : Option String)
    (ro : Except ProbeErr (Option ℤ))
    (go : Except ProbeErr (Option (List RobloxGameJson)))
    (TTL : ℚ) (cache : Cache RobloxStatusR) (tC tS : ℚ)
    (hmiss : freshVal cache (robloxStatusKey placeId universeId) tC = none) :
    (get_roblox_status placeId universeId ro go TTL cache tC tS).2.2 = true ∧
    (get_roblox_status placeId universeId ro go TTL cache tC tS).2.1
        (robloxStatusKey placeId universeId)
      = some (tS + TTL,
          (get_roblox_status placeId universeId ro go TTL cache tC tS).1) := by
  simp only [get_roblox_status, hmiss]
  by_cases hb : (truthyS placeId && !truthyS universeId) = true
  · rw [if_pos hb]
    cases ro with
    | error e => exact ⟨rfl, by simp [Function.update_same]⟩
    | ok uid =>
      cases uid with
      | none => exact ⟨rfl, by simp [Function.update_same]⟩
      | some u =>
        cases go with
        | error e => exact ⟨rfl, by simp [robloxGamesStep, Function.update_same]⟩
        | ok od =>
          cases od with
          | none => exact ⟨rfl, by simp [robloxGamesStep, Function.update_same]⟩
          | some l =>
            cases l with
            | nil => exact ⟨rfl, by simp [robloxGamesStep, Function.update_same]⟩
            | cons gd rest =>
              exact ⟨rfl, by simp [robloxGamesStep, Function.update_same]⟩
  · rw [if_neg hb]
    cases go with
    | error e => exact ⟨rfl, by simp [robloxGamesStep, Function.update_same]⟩
    | ok od =>
      cases od with
      | none => exact ⟨rfl, by simp [robloxGamesStep, Function.update_same]⟩
      | some l =>
        cases l with
        | nil => exact ⟨rfl, by simp [robloxGamesStep, Function.update_same]⟩
        | cons gd rest =>
          exact ⟨rfl, by simp [robloxGamesStep, Function.update_same]⟩

/-- C2 counterexample: two identical Minecraft requests at the same
instant. The code's endpoint probes twice and its second response
reflects the second probe (offline), while the spec's cached flow
(with any positive TTL, here 600) would probe once and serve the
first response from the cache — so the Minecraft endpoint does not
consult a cache before probing. -/
theorem minecraft_cache_counterexample :
    (serverStatusRun mcDemoReqs).2 = 2 ∧
    (serverStatusRun mcDemoReqs).1 = [mcDemoOnline, mcDemoOffline] ∧
    mcDemoOffline ≠ mcDemoOnline ∧
    (specMinecraftCachedRun 600 mcDemoReqs emptyCache).1
      = [(mcDemoOnline, true), (mcDemoOnline, false)] := by
  refine ⟨rfl, rfl, by decide, ?_⟩
  norm_num [specMinecraftCachedRun, mcDemoReqs, mcSpecKey, freshVal, Function.update,
    get_server_status, ping_minecraft_server, mcDemoStatus, emptyCache, mcDemoOnline,
    pyStrOfOptInt]

/-- A fresh hit serves the cached Epic entry without contacting
upstream. -/
theorem get_epic_hit (count : ℤ) (collection : String) (free_only : Bool)
    (outcome : Except ProbeErr (List EpicRawGame)) (TTL : ℚ)
    (cache : Cache EpicGamesR) (tC tS : ℚ) (v : EpicGamesR)
    (h : freshVal cache (epicGamesKey collection count free_only) tC = some v) :
    get_epic_games count collection free_only outcome TTL cache tC tS
      = (v, cache, false) := by
  simp only [get_epic_games, h]

/-- A miss fetches, filters, transforms and stores the Epic result
with expiry `tS + TTL`. -/
theorem get_epic_miss (count : ℤ) (collection : String) (free_only : Bool)
    (outcome : Except ProbeErr (List EpicRawGame)) (TTL : ℚ)
    (cache : Cache EpicGamesR) (tC tS : ℚ)
    (h : freshVal cache (epicGamesKey collection count free_only) tC = none) :
    (get_epic_games count collection free_only outcome TTL cache tC tS).2.2 = true ∧
    (get_epic_games count collection free_only outcome TTL cache tC tS).2.1
        (epicGamesKey collection count free_only)
      = some (tS + TTL,
          (get_epic_games count collection free_only outcome TTL cache tC tS).1) := by
  simp only [get_epic_games, h]
  refine ⟨trivial, ?_⟩
  simp [Function.update_same]

/-- C2 (amended): every cached provider endpoint — Roblox status,
Steam player count, Hytale status, Epic games — follows the cached
control flow: a fresh entry for the request's fingerprint key is
returned as-is without contacting upstream, and a miss contacts
upstream and stores the normalized result under that key with expiry
`tS + TTL`; the Minecraft server-status endpoint, by contrast,
consults no cache and probes upstream on every request. -/
theorem cached_flow_amended :
    (∀ (placeId universeId : Option String) (ro : Except ProbeErr (Option ℤ))
      (go : Except ProbeErr (Option (List RobloxGameJson))) (TTL : ℚ)
      (cache : Cache RobloxStatusR) (tC tS exp : ℚ) (v : RobloxStatusR),
      cache (robloxStatusKey placeId universeId) = some (exp, v) → tC < exp →
      get_roblox_status placeId universeId ro go TTL cache tC tS = (v, cache, false)) ∧
    (∀ (placeId universeId : Option String) (ro : Except ProbeErr (Option ℤ))
      (go : Except ProbeErr (Option (List RobloxGameJson))) (TTL : ℚ)
      (cache : Cache RobloxStatusR) (tC tS : ℚ),
      noFresh cache (robloxStatusKey placeId universeId) tC →
      (get_roblox_status placeId universeId ro go TTL cache tC tS).2.2 = true ∧
      (get_roblox_status placeId universeId ro go TTL cache tC tS).2.1
          (robloxStatusKey placeId universeId)
        = some (tS + TTL,
            (get_roblox_status placeId universeId ro go TTL cache tC tS).1)) ∧
    (∀ (appid : ℤ) (o : Except ProbeErr (Option ℤ)) (TTL : ℚ)
      (cache : Cache SteamPlayerR) (tC tS exp : ℚ) (v : SteamPlayerR),
      cache (toString appid) = some (exp, v) → tC < exp →
      get_steam_player_count appid o TTL cache tC tS = (v, cache, false)) ∧
    (∀ (appid : ℤ) (o : Except ProbeErr (Option ℤ)) (TTL : ℚ)
      (cache : Cache SteamPlayerR) (tC tS : ℚ),
      noFresh cache (toString appid) tC →
      (get_steam_player_count appid o TTL cache tC tS).2.2 = true ∧
      (get_steam_player_count appid o TTL cache tC tS).2.1 (toString appid)
        = some (tS + TTL, (get_steam_player_count appid o TTL cache tC tS).1)) ∧
    (∀ (host : String) (port : Option ℕ) (method : String)
      (nOut : Except ProbeErr (ℕ × NitradoJson)) (uOut : Except ProbeErr (List ℕ))
      (parse : List ℕ → Option HyQueryJson) (TTL : ℚ) (cache : Cache HytaleResp)
      (tC tS exp : ℚ) (v : HytaleResp),
      cache (hytaleKey host port method) = some (exp, v) → tC < exp →
      get_hytale_status host port method nOut uOut parse TTL cache tC tS
        = (v, cache, false)) ∧
    (∀ (host : String) (port : Option ℕ) (method : String)
      (nOut : Except ProbeErr (ℕ × NitradoJson)) (uOut : Except ProbeErr (List ℕ))
      (parse : List ℕ → Option HyQueryJson) (TTL : ℚ) (cache : Cache HytaleResp)
      (tC tS : ℚ),
      noFresh cache (hytaleKey host port method) tC →
      (get_hytale_status host port method nOut uOut parse TTL cache tC tS).2.2 = true ∧
      (get_hytale_status host port method nOut uOut parse TTL cache tC tS).2.1
          (hytaleKey host port method)
        = some (tS + TTL,
            (get_hytale_status host port method nOut uOut parse TTL cache tC tS).1)) ∧
    (∀ (count : ℤ) (collection : String) (free_only : Bool)
      (outcome : Except ProbeErr (List EpicRawGame)) (TTL : ℚ)
      (cache : Cache EpicGamesR) (tC tS exp : ℚ) (v : EpicGamesR),
      cache (epicGamesKey collection count free_only) = some (exp, v) → tC < exp →
      get_epic_games count collection free_only outcome TTL cache tC tS
        = (v, cache, false)) ∧
    (∀ (count : ℤ) (collection : String) (free_only : Bool)
      (outcome : Except ProbeErr (List EpicRawGame)) (TTL : ℚ)
      (cache : Cache EpicGamesR) (tC tS : ℚ),
      noFresh cache (epicGamesKey collection count free_only) tC →
      (get_epic_games count collection free_only outcome TTL cache tC tS).2.2 = true ∧
      (get_epic_games count collection free_only outcome TTL cache tC tS).2.1
          (epicGamesKey collection count free_only)
        = some (tS + TTL,
            (get_epic_games count collection free_only outcome TTL cache tC tS).1)) ∧
    (∀ reqs : List MCReq, (serverStatusRun reqs).2 = reqs.length) := by
  refine ⟨?_, ?_, ?_, ?_, ?_, ?_, ?_, ?_, serverStatusRun_count⟩
  · intro placeId universeId ro go TTL cache tC tS exp v hentry ht
    apply get_roblox_status_hit
    simp only [freshVal, hentry]
    rw [if_pos ht]
  · intro placeId universeId ro go TTL cache tC tS hmiss
    exact get_roblox_status_miss placeId universeId ro go TTL cache tC tS
      (freshVal_eq_none hmiss)
  · intro appid o TTL cache tC tS exp v hentry ht
    apply get_steam_hit
    simp only [freshVal, hentry]
    rw [if_pos ht]
  · intro appid o TTL cache tC tS hmiss
    exact get_steam_miss appid o TTL cache tC tS (freshVal_eq_none hmiss)
  · intro host port method nOut uOut parse TTL cache tC tS exp v hentry ht
    apply get_hytale_hit
    simp only [freshVal, hentry]
    rw [if_pos ht]
  · intro host port method nOut uOut parse TTL cache tC tS hmiss
    have hstep := get_hytale_miss host port method nOut uOut parse TTL cache tC tS
      (freshVal_eq_none hmiss)
    rw [hstep]
    exact ⟨rfl, by simp [Function.update_same]⟩
  · intro count collection free_only outcome TTL cache tC tS exp v hentry ht
    apply get_epic_hit
    simp only [freshVal, hentry]
    rw [if_pos ht]
  · intro count collection free_only outcome TTL cache tC tS hmiss
    exact get_epic_miss count collection free_only outcome TTL cache tC tS
      (freshVal_eq_none hmiss)

/-- C2 witness: a fresh Roblox entry is served unchanged without
probing, a Steam miss on the empty cache probes, a fresh Epic entry
is served unchanged, and two Minecraft requests perform two probes. -/
theorem cached_flow_amended_witness :
    get_roblox_status (some "1") none (.ok none) (.ok none) 600
        (Function.update emptyCache (robloxStatusKey (some "1") none)
          (some (100, robloxOffline))) 0 0
      = (robloxOffline,
         Function.update emptyCache (robloxStatusKey (some "1") none)
           (some (100, robloxOffline)), false) ∧
    (get_steam_player_count 440 (.ok (some 5)) 600 emptyCache 0 0).2.2 = true ∧
    get_epic_games 10 "most-played" false (.ok []) 600
        (Function.update emptyCache (epicGamesKey "most-played" 10 false)
          (some (100, ⟨[], 0⟩))) 0 0
      = (⟨[], 0⟩,
         Function.update emptyCache (epicGamesKey "most-played" 10 false)
           (some (100, ⟨[], 0⟩)), false) ∧
    (serverStatusRun mcDemoReqs).2 = mcDemoReqs.length := by
  refine ⟨?_, ?_, ?_, cached_flow_amended.2.2.2.2.2.2.2.2 mcDemoReqs⟩
  · exact cached_flow_amended.1 (some "1") none (.ok none) (.ok none) 600
      (Function.update emptyCache (robloxStatusKey (some "1") none)
        (some (100, robloxOffline))) 0 0 100 robloxOffline
      (Function.update_same _ _ _) (by norm_num)
  · exact (cached_flow_amended.2.2.2.1 440 (.ok (some 5)) 600 emptyCache 0 0
      (noFresh_empty _ _)).1
  · exact cached_flow_amended.2.2.2.2.2.2.1 10 "most-played" false (.ok []) 600
      (Function.update emptyCache (epicGamesKey "most-played" 10 false)
        (some (100, ⟨[], 0⟩))) 0 0 100 ⟨[], 0⟩
      (Function.update_same _ _ _) (by norm_num)
